import Mathlib

/-!
# Verification of the Sturgeon debate-orchestration engine

Shallow embedding of the core of the `ai-service` package:
`json_utils.py` (JSON repair), `gemini_orchestrator.py` (response parsing,
citation extraction, clinical state, debate turns), `hallucination_check.py`
and the session/fallback handling of `main.py`.

Python regular expressions are embedded through a small backtracking
regex engine (`RE` / `reM`) with Python `re` semantics (leftmost search,
left-biased alternation, greedy/lazy bounded repetition, `\b`, `^`, `$`);
`json.loads` is embedded as `jsonLoads` (strict JSON + `NaN`/`Infinity`).
Machine floats are modelled as exact rationals; raised exceptions are
modelled with `Except`/`Option`.
-/

set_option maxRecDepth 8000

namespace Sturgeon

/-! ## Character helpers (ASCII semantics of the texts involved) -/

/-- `{` written via its code point (also usable inside embedded text). -/
def lbrace : Char := Char.ofNat 123

/-- `}` written via its code point. -/
def rbrace : Char := Char.ofNat 125

/-- Backtick character. -/
def btick : Char := Char.ofNat 96

/-- Python `\s`: space, tab, newline, carriage return, form feed, vertical tab. -/
def isPyWs (c : Char) : Bool :=
  c = ' ' || c = '\t' || c = '\n' || c = '\r' || c = '\x0b' || c = '\x0c'

/-- JSON whitespace as used by Python's `json` module: space, tab, newline, CR. -/
def isJsonWs (c : Char) : Bool :=
  c = ' ' || c = '\t' || c = '\n' || c = '\r'

/-- Python `\w` restricted to ASCII (all texts involved are ASCII). -/
def isWordChar (c : Char) : Bool :=
  c.isAlphanum || c = '_'

def isDigitChar (c : Char) : Bool := c.isDigit

/-- Lowercase a character list (Python `str.lower` on ASCII). -/
def lowerL (s : List Char) : List Char := s.map Char.toLower

/-- Uppercase a character list (Python `str.upper` on ASCII). -/
def upperL (s : List Char) : List Char := s.map Char.toUpper

/-- Python `str.strip()` (strip leading and trailing whitespace). -/
def stripL (s : List Char) : List Char :=
  ((s.dropWhile isPyWs).reverse.dropWhile isPyWs).reverse

/-- Python `str.rstrip()`. -/
def rstripL (s : List Char) : List Char :=
  (s.reverse.dropWhile isPyWs).reverse

/-- Python `str.rstrip(chars)`: strip trailing characters from a given set. -/
def rstripSet (bad : List Char) (s : List Char) : List Char :=
  (s.reverse.dropWhile (fun c => bad.contains c)).reverse

/-- Substring test: Python `needle in haystack`. -/
def containsSub (hay needle : List Char) : Bool :=
  (List.range (hay.length + 1)).any (fun i => needle.isPrefixOf (hay.drop i))

/-- Python `str.replace(old, new)` (replaces every occurrence, left to right;
`old` is assumed nonempty, as in every use below). -/
def replaceAll (old new : List Char) (s : List Char) : List Char :=
  go (s.length + 1) s
where
  go : Nat → List Char → List Char
  | 0, rest => rest
  | _ + 1, [] => []
  | n + 1, c :: rest =>
    if old.isPrefixOf (c :: rest) then
      new ++ go n ((c :: rest).drop old.length)
    else
      c :: go n rest

/-- `text[a:b]` (Python slice with `0 ≤ a ≤ b`). -/
def sliceL (s : List Char) (a b : Nat) : List Char :=
  (s.drop a).take (b - a)

/-! ## A small backtracking regex engine with Python `re` semantics -/

/-- Regex abstract syntax.  `lit ci l`: literal characters (`ci` = case
insensitive, in which case `l` is stored lowercased); `rep lo hi lazy r`:
`r{lo,hi}` (`hi = none` for unbounded) with lazy flag; `grp n r`: capture
group `n`; `wb`: `\b`; `bos`: `^` (no MULTILINE); `eol`: `$` (end of text or
just before a final newline, no MULTILINE). -/
inductive RE : Type where
  | eps : RE
  | cls : (Char → Bool) → RE
  | lit : Bool → List Char → RE
  | seqr : RE → RE → RE
  | alt : RE → RE → RE
  | rep : Nat → Option Nat → Bool → RE → RE
  | grp : Nat → RE → RE
  | wb : RE
  | bos : RE
  | eol : RE

/-- Matcher state: previous character (for `\b`), current position, rest of text. -/
structure MSt where
  prev : Option Char
  pos : Nat
  rest : List Char

/-- Capture list: (group index, start, end), innermost-last-closed first. -/
abbrev Caps := List (Nat × Nat × Nat)

/-- Backtracking matcher in continuation-passing style with fuel.
Alternation is left-biased, repetition greedy or lazy, exactly as Python `re`
behaves on the patterns embedded below (none of which can match an empty
repetition body). -/
def reM (fuel : Nat) (r : RE) (st : MSt) (cs : Caps)
    (k : MSt → Caps → Option (MSt × Caps)) : Option (MSt × Caps) :=
  match fuel with
  | 0 => none
  | fuel + 1 =>
    match r with
    | .eps => k st cs
    | .cls p =>
      match st.rest with
      | [] => none
      | c :: t => if p c then k ⟨some c, st.pos + 1, t⟩ cs else none
    | .lit ci l =>
      match l with
      | [] => k st cs
      | c :: l2 =>
        match st.rest with
        | [] => none
        | d :: t =>
          if (if ci then d.toLower = c else d = c) then
            reM fuel (.lit ci l2) ⟨some d, st.pos + 1, t⟩ cs k
          else none
    | .seqr a b => reM fuel a st cs (fun st2 cs2 => reM fuel b st2 cs2 k)
    | .alt a b =>
      match reM fuel a st cs k with
      | some res => some res
      | none => reM fuel b st cs k
    | .rep lo hi lz a =>
      if lo > 0 then
        reM fuel a st cs (fun st2 cs2 =>
          reM fuel (.rep (lo - 1) (hi.map (· - 1)) lz a) st2 cs2 k)
      else
        match hi with
        | some 0 => k st cs
        | _ =>
          let hi2 := hi.map (· - 1)
          if lz then
            match k st cs with
            | some res => some res
            | none =>
              reM fuel a st cs (fun st2 cs2 => reM fuel (.rep 0 hi2 lz a) st2 cs2 k)
          else
            match reM fuel a st cs (fun st2 cs2 => reM fuel (.rep 0 hi2 lz a) st2 cs2 k) with
            | some res => some res
            | none => k st cs
    | .grp n a =>
      let s0 := st.pos
      reM fuel a st cs (fun st2 cs2 => k st2 ((n, s0, st2.pos) :: cs2))
    | .wb =>
      let lw := match st.prev with | some c => isWordChar c | none => false
      let rw := match st.rest with | c :: _ => isWordChar c | [] => false
      if lw ≠ rw then k st cs else none
    | .bos => if st.pos = 0 then k st cs else none
    | .eol =>
      match st.rest with
      | [] => k st cs
      | [c] => if c = '\n' then k st cs else none
      | _ => none

/-- Fuel used per match attempt; generous (actual backtracking on the
embedded patterns and texts is far smaller). -/
def reFuel : Nat := 1000000

/-- Try to match `r` at successive start positions (Python `re.search` /
first `finditer` hit), returning (start, end, captures). -/
def reSearchFrom (r : RE) : Nat → Option Char → List Char → Option (Nat × Nat × Caps)
  | pos, prev, rest =>
    match reM reFuel r ⟨prev, pos, rest⟩ [] (fun st cs => some (st, cs)) with
    | some (st, cs) => some (pos, st.pos, cs)
    | none =>
      match rest with
      | [] => none
      | c :: t => reSearchFrom r (pos + 1) (some c) t

/-- Python `re.search`. -/
def reSearch (r : RE) (text : List Char) : Option (Nat × Nat × Caps) :=
  reSearchFrom r 0 none text

/-- Python `re.match` (anchored at position 0). -/
def reMatchStart (r : RE) (text : List Char) : Option (Nat × Nat × Caps) :=
  match reM reFuel r ⟨none, 0, text⟩ [] (fun st cs => some (st, cs)) with
  | some (st, cs) => some (0, st.pos, cs)
  | none => none

/-- Worker for `reFindAll`. -/
def reFindAllGo (r : RE) (text : List Char) : Nat → Nat → List (Nat × Nat × Caps)
  | 0, _ => []
  | n + 1, pos =>
    let prev := if pos = 0 then none else text.get? (pos - 1)
    match reSearchFrom r pos prev (text.drop pos) with
    | none => []
    | some (s, e, cs) =>
      if e > s then (s, e, cs) :: reFindAllGo r text n e
      else (s, e, cs) :: reFindAllGo r text n (e + 1)

/-- Python `re.finditer`: all non-overlapping matches, left to right. -/
def reFindAll (r : RE) (text : List Char) : List (Nat × Nat × Caps) :=
  reFindAllGo r text (text.length + 1) 0

/-- First span captured by group `n`. -/
def capGet (cs : Caps) (n : Nat) : Option (Nat × Nat) :=
  match cs.find? (fun c => c.1 = n) with
  | some (_, s, e) => some (s, e)
  | none => none

/-- Remove the given (sorted, disjoint) spans from `text`, starting from
position `pos` (used for `re.sub(pat, "", text)`). -/
def removeSpansFrom (text : List Char) : List (Nat × Nat) → Nat → List Char
  | [], pos => text.drop pos
  | (s, e) :: rest, pos => sliceL text pos s ++ removeSpansFrom text rest e

/-- `re.sub(pat, "", text)`: delete every non-overlapping match. -/
def reRemoveAll (r : RE) (text : List Char) : List Char :=
  removeSpansFrom text ((reFindAll r text).map (fun m => (m.1, m.2.1))) 0

/-! ### Regex smart constructors -/

def reCat : List RE → RE
  | [] => .eps
  | [r] => r
  | r :: rest => .seqr r (reCat rest)

def reAlts : List RE → RE
  | [] => .cls (fun _ => false)
  | [r] => r
  | r :: rest => .alt r (reAlts rest)

/-- Case-sensitive literal. -/
def reLit (s : String) : RE := .lit false s.toList

/-- Case-insensitive literal (stored lowercased). -/
def reLitCI (s : String) : RE := .lit true (lowerL s.toList)

/-- `r?` (greedy). -/
def reOpt (r : RE) : RE := .rep 0 (some 1) false r

/-- `\s*` (greedy). -/
def reWsStar : RE := .rep 0 none false (.cls isPyWs)

/-- `\s+` (greedy). -/
def reWsPlus : RE := .rep 1 none false (.cls isPyWs)

/-- `\d+` (greedy). -/
def reDigitsPlus : RE := .rep 1 none false (.cls isDigitChar)

/-- `\d{4}`. -/
def reYear : RE := .rep 4 (some 4) false (.cls isDigitChar)

/-! ## JSON values and Python `json.loads`

JSON numbers (Python `int`/`float`) are modelled as exact rationals;
Python's `NaN` / `Infinity` / `-Infinity` extensions get dedicated
constructors.  An object is a Python `dict`: duplicate keys collapse to the
first position with the last value (`dset`). -/

inductive JVal : Type where
  | null : JVal
  | bool : Bool → JVal
  | num : ℚ → JVal
  | str : List Char → JVal
  | arr : List JVal → JVal
  | obj : List (List Char × JVal) → JVal
  | nan : JVal
  | inf : Bool → JVal

instance : Inhabited JVal := ⟨.null⟩

/-- String-literal convenience constructor. -/
def JVal.s (st : String) : JVal := .str st.toList

/-- Python `dict` assignment `d[k] = v`: overwrite in place, else append. -/
def dset (d : List (List Char × JVal)) (k : List Char) (v : JVal) :
    List (List Char × JVal) :=
  if d.any (fun p => p.1 == k) then
    d.map (fun p => if p.1 == k then (k, v) else p)
  else d ++ [(k, v)]

/-- Python `d.get(k)` (`None` when absent; keys are unique by construction). -/
def dget (d : List (List Char × JVal)) (k : List Char) : Option JVal :=
  match d.find? (fun p => p.1 == k) with
  | some (_, v) => some v
  | none => none

/-- Python `d.get(k, default)`. -/
def dgetD (d : List (List Char × JVal)) (k : List Char) (dflt : JVal) : JVal :=
  (dget d k).getD dflt

/-- Python `k in d`. -/
def dmem (d : List (List Char × JVal)) (k : List Char) : Bool :=
  d.any (fun p => p.1 == k)

/-- Python `d.update(d2)`: assign every pair of `d2` in order. -/
def dupdate (d d2 : List (List Char × JVal)) : List (List Char × JVal) :=
  d2.foldl (fun acc p => dset acc p.1 p.2) d

/-- Python truthiness of a JSON value (`bool(v)`). -/
def pyTruthy : JVal → Bool
  | .null => false
  | .bool b => b
  | .num q => q ≠ mkRat 0 1
  | .str s => s ≠ []
  | .arr xs => !xs.isEmpty
  | .obj fs => !fs.isEmpty
  | .nan => true
  | .inf _ => true

/-- Skip JSON whitespace. -/
def skipJWs (s : List Char) : List Char := s.dropWhile isJsonWs

def hexVal (c : Char) : Option Nat :=
  if '0' ≤ c ∧ c ≤ '9' then some (c.toNat - 48)
  else if 'a' ≤ c ∧ c ≤ 'f' then some (c.toNat - 87)
  else if 'A' ≤ c ∧ c ≤ 'F' then some (c.toNat - 70)
  else none

/-- Parse exactly four hex digits. -/
def parse4Hex : List Char → Option (Nat × List Char)
  | a :: b :: c :: d :: rest => do
    let x ← hexVal a; let y ← hexVal b; let z ← hexVal c; let w ← hexVal d
    pure (((x * 16 + y) * 16 + z) * 16 + w, rest)
  | _ => none

/-- Code point to `Char`; lone surrogates (which Python `str` can hold but
`Char` cannot) are mapped to U+FFFD — no text in this development contains
any `\uXXXX` escape, so the case is never exercised. -/
def codeToChar (n : Nat) : Char :=
  if n.isValidChar then Char.ofNat n else '�'

/-- Strict JSON string body (after the opening quote): Python
`py_scanstring` with `strict=True` — raw control characters are an error;
escapes `\" \\ \/ \b \f \n \r \t \uXXXX` (with surrogate pairing). -/
def parseJStr : Nat → List Char → Option (List Char × List Char)
  | 0, _ => none
  | _ + 1, [] => none
  | fuel + 1, c :: rest =>
    if c = '"' then some ([], rest)
    else if c = '\\' then
      match rest with
      | [] => none
      | e :: rest2 =>
        let esc : Option (Char × List Char) :=
          if e = '"' then some ('"', rest2)
          else if e = '\\' then some ('\\', rest2)
          else if e = '/' then some ('/', rest2)
          else if e = 'b' then some ('\x08', rest2)
          else if e = 'f' then some ('\x0c', rest2)
          else if e = 'n' then some ('\n', rest2)
          else if e = 'r' then some ('\r', rest2)
          else if e = 't' then some ('\t', rest2)
          else none
        match esc with
        | some (ch, rest3) =>
          match parseJStr fuel rest3 with
          | some (s, rem) => some (ch :: s, rem)
          | none => none
        | none =>
          if e = 'u' then
            match parse4Hex rest2 with
            | none => none
            | some (n, rest3) =>
              if 0xd800 ≤ n ∧ n ≤ 0xdbff then
                match rest3 with
                | '\\' :: 'u' :: rest4 =>
                  match parse4Hex rest4 with
                  | some (m, rest5) =>
                    if 0xdc00 ≤ m ∧ m ≤ 0xdfff then
                      let cp := 0x10000 + (n - 0xd800) * 0x400 + (m - 0xdc00)
                      match parseJStr fuel rest5 with
                      | some (s, rem) => some (codeToChar cp :: s, rem)
                      | none => none
                    else
                      match parseJStr fuel rest3 with
                      | some (s, rem) => some (codeToChar n :: s, rem)
                      | none => none
                  | none =>
                    match parseJStr fuel rest3 with
                    | some (s, rem) => some (codeToChar n :: s, rem)
                    | none => none
                | _ =>
                  match parseJStr fuel rest3 with
                  | some (s, rem) => some (codeToChar n :: s, rem)
                  | none => none
              else
                match parseJStr fuel rest3 with
                | some (s, rem) => some (codeToChar n :: s, rem)
                | none => none
          else none
    else if c.toNat < 0x20 then none
    else
      match parseJStr fuel rest with
      | some (s, rem) => some (c :: s, rem)
      | none => none

/-- Rational arithmetic through `mkRat` on raw numerator/denominator
(kernel-reducible, unlike the `Rat.add`-family internals). -/
def rNeg (a : ℚ) : ℚ := mkRat (-a.num) a.den

def rAdd (a b : ℚ) : ℚ :=
  mkRat (a.num * Int.ofNat b.den + b.num * Int.ofNat a.den) (a.den * b.den)

def rSub (a b : ℚ) : ℚ := rAdd a (rNeg b)

def rMul (a b : ℚ) : ℚ := mkRat (a.num * b.num) (a.den * b.den)

def rDiv (a b : ℚ) : ℚ :=
  mkRat (a.num * Int.ofNat b.den * (if b.num < 0 then -1 else 1)) (a.den * b.num.natAbs)

/-- `10 ^ n` on `ℚ`. -/
def ratPow10 : Nat → ℚ
  | 0 => mkRat 1 1
  | n + 1 => rMul (mkRat 10 1) (ratPow10 n)

/-- `10 ^ e` for an integer exponent. -/
def ratPow10Z (e : ℤ) : ℚ :=
  if 0 ≤ e then ratPow10 e.toNat else rDiv (mkRat 1 1) (ratPow10 (-e).toNat)

/-- Decimal digit accumulator. -/
def digitsToInt (ds : List Char) : ℤ :=
  ds.foldl (fun a c => a * 10 + (Int.ofNat c.toNat - 48)) 0

/-- `|q|`. -/
def ratAbs (q : ℚ) : ℚ := if q < 0 then rNeg q else q

/-- JSON number per Python's `NUMBER_RE`:
`(-?(?:0|[1-9]\d*))(\.\d+)?([eE][-+]?\d+)?`, converted to an exact rational. -/
def parseJNum (s : List Char) : Option (ℚ × List Char) :=
  let (neg, s1) := match s with
    | '-' :: t => (true, t)
    | _ => (false, s)
  let intPart : Option (List Char × List Char) :=
    match s1 with
    | '0' :: t => some (['0'], t)
    | c :: t =>
      if '1' ≤ c ∧ c ≤ '9' then
        some (c :: t.takeWhile isDigitChar, t.dropWhile isDigitChar)
      else none
    | [] => none
  match intPart with
  | none => none
  | some (ds, s2) =>
    let iv : ℤ := digitsToInt ds
    let (frac, s3) : ℚ × List Char :=
      match s2 with
      | '.' :: t =>
        let fd := t.takeWhile isDigitChar
        if fd = [] then (mkRat 0 1, s2)
        else (rDiv (mkRat (digitsToInt fd) 1) (ratPow10 fd.length),
              t.dropWhile isDigitChar)
      | _ => (mkRat 0 1, s2)
    let (expo, s4) : ℤ × List Char :=
      match s3 with
      | e :: t =>
        if e = 'e' ∨ e = 'E' then
          let (esign, t1) : ℤ × List Char :=
            match t with
            | '+' :: u => (1, u)
            | '-' :: u => (-1, u)
            | _ => (1, t)
          let ed := t1.takeWhile isDigitChar
          if ed = [] then (0, s3)
          else (esign * digitsToInt ed, t1.dropWhile isDigitChar)
        else (0, s3)
      | [] => (0, s3)
    let mag : ℚ := rMul (rAdd (mkRat iv 1) frac) (ratPow10Z expo)
    some (if neg then rNeg mag else mag, s4)

mutual

/-- One JSON value at the current position (whitespace already skipped),
per Python's `scan_once`. -/
def parseJVal : Nat → List Char → Option (JVal × List Char)
  | 0, _ => none
  | fuel + 1, s =>
    match s with
    | [] => none
    | c :: rest =>
      if c = '"' then
        match parseJStr (rest.length + 1) rest with
        | some (str, rem) => some (.str str, rem)
        | none => none
      else if c = lbrace then
        parseJObj fuel (skipJWs rest) []
      else if c = '[' then
        parseJArrFirst fuel (skipJWs rest)
      else if ['n', 'u', 'l', 'l'].isPrefixOf s then some (.null, s.drop 4)
      else if ['t', 'r', 'u', 'e'].isPrefixOf s then some (.bool true, s.drop 4)
      else if ['f', 'a', 'l', 's', 'e'].isPrefixOf s then some (.bool false, s.drop 5)
      else if ['N', 'a', 'N'].isPrefixOf s then some (.nan, s.drop 3)
      else if ['I', 'n', 'f', 'i', 'n', 'i', 't', 'y'].isPrefixOf s then some (.inf false, s.drop 8)
      else if ['-', 'I', 'n', 'f', 'i', 'n', 'i', 't', 'y'].isPrefixOf s then some (.inf true, s.drop 9)
      else
        match parseJNum s with
        | some (q, rem) => some (.num q, rem)
        | none => none

/-- Object members; the cursor is just after `{` (whitespace skipped),
`acc` holds the members parsed so far in Python-`dict` form. -/
def parseJObj (fuel : Nat) (s : List Char) (acc : List (List Char × JVal)) :
    Option (JVal × List Char) :=
  match fuel with
  | 0 => none
  | fuel + 1 =>
    match s with
    | c :: rest =>
      if c == rbrace && acc.isEmpty then some (.obj [], rest)
      else if c = '"' then
        match parseJStr (rest.length + 1) rest with
        | none => none
        | some (key, rem) =>
          match skipJWs rem with
          | ':' :: rem2 =>
            match parseJVal fuel (skipJWs rem2) with
            | none => none
            | some (v, rem3) =>
              let acc2 := dset acc key v
              match skipJWs rem3 with
              | ',' :: rem4 =>
                match skipJWs rem4 with
                | '"' :: rem5 => parseJObj fuel ('"' :: rem5) acc2
                | _ => none
              | c2 :: rem4 =>
                if c2 = rbrace then some (.obj acc2, rem4) else none
              | [] => none
          | _ => none
      else none
    | [] => none

/-- First array element or `]`. -/
def parseJArrFirst (fuel : Nat) (s : List Char) : Option (JVal × List Char) :=
  match fuel with
  | 0 => none
  | fuel + 1 =>
    match s with
    | ']' :: rest => some (.arr [], rest)
    | _ =>
      match parseJVal fuel s with
      | none => none
      | some (v, rem) => parseJArrRest fuel (skipJWs rem) [v]

/-- Subsequent array elements. -/
def parseJArrRest (fuel : Nat) (s : List Char) (acc : List JVal) :
    Option (JVal × List Char) :=
  match fuel with
  | 0 => none
  | fuel + 1 =>
    match s with
    | ']' :: rest => some (.arr acc.reverse, rest)
    | ',' :: rest =>
      match parseJVal fuel (skipJWs rest) with
      | none => none
      | some (v, rem) => parseJArrRest fuel (skipJWs rem) (v :: acc)
    | _ => none

end

/-- Python `json.loads`: value surrounded by whitespace, nothing after
("Extra data" otherwise → `none`). -/
def jsonLoads (s : List Char) : Option JVal :=
  match parseJVal (s.length + 1) (skipJWs s) with
  | none => none
  | some (v, rem) => if skipJWs rem = [] then some v else none


/-! ## `json_utils.py` -/

/-- First walk of `_repair_truncated_json`: quote parity with escape
skipping (`i += 2` on a backslash while inside a string). -/
def quoteParity : List Char → Bool → Bool
  | [], b => b
  | '\\' :: rest, true =>
    match rest with
    | [] => true
    | _ :: rest2 => quoteParity rest2 true
  | '"' :: rest, b => quoteParity rest (!b)
  | _ :: rest, b => quoteParity rest b

/-- Second walk of `_repair_truncated_json`: the stack of unclosed
`{` / `[` openers, most recent first (Python keeps the most recent last and
closes over `reversed(stack)`). -/
def bracketWalk : List Char → Bool → List Char → List Char
  | [], _, st => st
  | '\\' :: rest, true, st =>
    match rest with
    | [] => st
    | _ :: rest2 => bracketWalk rest2 true st
  | '"' :: rest, b, st => bracketWalk rest (!b) st
  | c :: rest, b, st =>
    if b then bracketWalk rest b st
    else if c == lbrace || c == '[' then bracketWalk rest b (c :: st)
    else if c == rbrace then
      match st with
      | t :: st2 => if t == lbrace then bracketWalk rest b st2 else bracketWalk rest b st
      | [] => bracketWalk rest b st
    else if c == ']' then
      match st with
      | t :: st2 => if t == '[' then bracketWalk rest b st2 else bracketWalk rest b st
      | [] => bracketWalk rest b st
    else bracketWalk rest b st

/-- Closing tokens for a stack of openers (most recent first). -/
def closersFor (stack : List Char) : List Char :=
  stack.map (fun opener => if opener == '[' then ']' else rbrace)

/-- `_repair_truncated_json`: right-strip, drop one trailing comma
(`re.sub(r',\s*$', '', ...)` after `rstrip` matches exactly a final comma),
close an unterminated string, close unclosed brackets in reverse order. -/
def repairTruncatedJson (text : List Char) : List Char :=
  let t1 := rstripL text
  let t2 := if t1.getLast? = some ',' then t1.dropLast else t1
  let t3 := if quoteParity t2 false then t2 ++ ['"'] else t2
  t3 ++ closersFor (bracketWalk t3 false [])

/-- `_fix_newlines_in_json_strings`: replace literal newlines inside quoted
strings by spaces (escape pairs are copied verbatim while inside a string;
a final lone backslash falls through and is copied). -/
def fixNewlines : List Char → Bool → List Char
  | [], _ => []
  | '\\' :: c :: rest, true => '\\' :: c :: fixNewlines rest true
  | ['\\'], true => ['\\']
  | '"' :: rest, b => '"' :: fixNewlines rest (!b)
  | '\n' :: rest, b => (if b then ' ' else '\n') :: fixNewlines rest b
  | c :: rest, b => c :: fixNewlines rest b

/-- `re.sub(r'"\s*\n\s*"', '",\n"', text)`: insert missing commas between
adjacent quoted fields (the whitespace run between the quotes must contain a
newline). -/
def commaFixSub (text : List Char) : List Char :=
  go (text.length + 1) text
where
  go : Nat → List Char → List Char
  | 0, rest => rest
  | _ + 1, [] => []
  | n + 1, '"' :: rest =>
    let ws := rest.takeWhile isPyWs
    if ws.contains '\n' then
      match rest.drop ws.length with
      | '"' :: rest2 => '"' :: ',' :: '\n' :: '"' :: go n rest2
      | _ => '"' :: go n rest
    else '"' :: go n rest
  | n + 1, c :: rest => c :: go n rest

/-- `re.sub(r',\s*([}\]])', r'\1', text)`: drop a comma (plus whitespace)
directly before a closing bracket. -/
def trailingCommaSub (text : List Char) : List Char :=
  go (text.length + 1) text
where
  go : Nat → List Char → List Char
  | 0, rest => rest
  | _ + 1, [] => []
  | n + 1, ',' :: rest =>
    let ws := rest.takeWhile isPyWs
    match rest.drop ws.length with
    | b :: rest2 =>
      if b == rbrace || b == ']' then b :: go n rest2 else ',' :: go n rest
    | [] => ',' :: go n rest
  | n + 1, c :: rest => c :: go n rest

/-- Pattern for fenced code blocks in `extract_json` and
`_parse_orchestrator_response`. -/
def fenceRE : RE :=
  reCat [reLit "```", reOpt (reLit "json"), reWsStar,
         .grp 1 (.rep 0 none true (.cls (fun _ => true))), reLit "```"]

/-- Strip an enclosing fenced code block when present (both parsers start
with this step). -/
def fenceStage (text : List Char) : List Char :=
  match reSearch fenceRE text with
  | some (_, _, cs) =>
    match capGet cs 1 with
    | some (a, b) => sliceL text a b
    | none => text
  | none => text

/-- Python `str.find` for a single character. -/
def findCharIdx (c : Char) (s : List Char) : Option Nat :=
  s.findIdx? (fun d => d == c)

/-- Python `str.rfind` for a single character. -/
def rfindCharIdx (c : Char) (s : List Char) : Option Nat :=
  match (s.reverse).findIdx? (fun d => d == c) with
  | some i => some (s.length - 1 - i)
  | none => none

/-- Attempt-4 pattern of `extract_json`:
`\{[^{}]*"name"\s*:\s*"[^"]+?"[^{}]*\}`. -/
def dxRE : RE :=
  reCat [reLit "\x7b",
         .rep 0 none false (.cls (fun c => c != lbrace && c != rbrace)),
         reLit "\"name\"", reWsStar, reLit ":", reWsStar, reLit "\"",
         .rep 1 none true (.cls (fun c => c != '"')),
         reLit "\"",
         .rep 0 none false (.cls (fun c => c != lbrace && c != rbrace)),
         reLit "\x7d"]

/-- `extract_json` from `json_utils.py`.  `Except.error` models the raised
`HTTPException`; the error value is the `detail` string. -/
def extractJson (text : List Char) : Except (List Char) JVal :=
  let t0 := fenceStage text
  let clipped : Except (List Char) (List Char) :=
    match findCharIdx lbrace t0, rfindCharIdx rbrace t0 with
    | some s, some e => .ok (sliceL t0 s (e + 1))
    | some s, none => .ok (t0.drop s)
    | none, _ => .error "Model response contained no JSON".toList
  match clipped with
  | .error e => .error e
  | .ok t1 =>
    let t2 := fixNewlines t1 false
    match jsonLoads t2 with
    | some v => .ok v
    | none =>
      let fixed := trailingCommaSub (commaFixSub t2)
      match jsonLoads fixed with
      | some v => .ok v
      | none =>
        let repaired := trailingCommaSub (repairTruncatedJson t2)
        match jsonLoads repaired with
        | some v => .ok v
        | none =>
          let diagnoses :=
            (reFindAll dxRE t2).filterMap (fun m => jsonLoads (sliceL t2 m.1 m.2.1))
          if diagnoses.isEmpty then
            .error "Failed to parse model response as JSON".toList
          else
            .ok (.obj [("diagnoses".toList, .arr diagnoses)])


/-! ## `gemini_orchestrator._parse_orchestrator_response` -/

/-- Hex digit characters. -/
def hexDigits : List Char := "0123456789abcdef".toList

def toHex4 (n : Nat) : List Char :=
  [hexDigits.getD (n / 4096 % 16) '0', hexDigits.getD (n / 256 % 16) '0',
   hexDigits.getD (n / 16 % 16) '0', hexDigits.getD (n % 16) '0']

/-- `json.dumps` escaping of one character (`ensure_ascii=True`). -/
def jsonEscChar (c : Char) : List Char :=
  if c = '"' then ['\\', '"']
  else if c = '\\' then ['\\', '\\']
  else if c = '\n' then ['\\', 'n']
  else if c = '\r' then ['\\', 'r']
  else if c = '\t' then ['\\', 't']
  else if c = '\x08' then ['\\', 'b']
  else if c = '\x0c' then ['\\', 'f']
  else if c.toNat < 0x20 ∨ c.toNat > 0x7e then
    -- ensure_ascii: BMP code points escape directly; astral code points
    -- would use surrogate pairs (no text in this development contains any)
    if c.toNat ≤ 0xffff then '\\' :: 'u' :: toHex4 c.toNat
    else '\\' :: 'u' :: toHex4 0xfffd
  else [c]

/-- `json.dumps` of a string body. -/
def jsonDumpsStr (s : List Char) : List Char :=
  '"' :: (s.flatMap jsonEscChar) ++ ['"']

mutual

/-- `json.dumps` with Python's default separators `", "` and `": "`.
Non-integer rationals print via `Rat`'s representation — a stand-in for
Python float `repr` on a path no claim exercises. -/
def jsonDumps : JVal → List Char
  | .null => "null".toList
  | .bool true => "true".toList
  | .bool false => "false".toList
  | .num q =>
    if q.den = 1 then (toString q.num).toList else (toString q).toList
  | .str s => jsonDumpsStr s
  | .arr xs => '[' :: jsonDumpsList xs ++ [']']
  | .obj fs => lbrace :: jsonDumpsFields fs ++ [rbrace]
  | .nan => "NaN".toList
  | .inf true => "-Infinity".toList
  | .inf false => "Infinity".toList

def jsonDumpsList : List JVal → List Char
  | [] => []
  | [x] => jsonDumps x
  | x :: y :: rest => jsonDumps x ++ ',' :: ' ' :: jsonDumpsList (y :: rest)

def jsonDumpsFields : List (List Char × JVal) → List Char
  | [] => []
  | [(k, v)] => jsonDumpsStr k ++ ':' :: ' ' :: jsonDumps v
  | (k, v) :: q :: rest =>
    jsonDumpsStr k ++ ':' :: ' ' :: jsonDumps v ++ ',' :: ' ' :: jsonDumpsFields (q :: rest)

end

/-- Regex used on truncated synthesis output:
`"ai_response"\s*:\s*"((?:[^"\\]|\\.)*)(?:"|$)` (DOTALL). -/
def aiRespRE : RE :=
  reCat [reLit "\"ai_response\"", reWsStar, reLit ":", reWsStar, reLit "\"",
         .grp 1 (.rep 0 none false
           (.alt (.cls (fun c => c != '"' && c != '\\'))
                 (reCat [reLit "\\", .cls (fun _ => true)]))),
         .alt (reLit "\"") .eol]

/-- JSON string-escape unfolding applied to the regex-extracted value:
`.replace('\\"', '"').replace('\\n', '\n').replace('\\\\', '\\')`. -/
def unescapeExtracted (s : List Char) : List Char :=
  replaceAll ['\\', '\\'] ['\\']
    (replaceAll ['\\', 'n'] ['\n']
      (replaceAll ['\\', '"'] ['"'] s))

/-- `^\s*\{\s*"ai_response"\s*:\s*"?` (the `re.sub` prefix-strip used on a
partially-JSON `ai_response` string). -/
def aiPrefRE : RE :=
  reCat [reWsStar, reLit "\x7b", reWsStar, reLit "\"ai_response\"",
         reWsStar, reLit ":", reWsStar, reOpt (reLit "\"")]

/-- `"\s*,?\s*"(updated_differential|suggested_test|medgemma_query).*$`
(no DOTALL: `.` stops at a newline). -/
def aiTailRE : RE :=
  reCat [reLit "\"", reWsStar, reOpt (reLit ","), reWsStar, reLit "\"",
         .grp 1 (reAlts [reLit "updated_differential", reLit "suggested_test",
                         reLit "medgemma_query"]),
         .rep 0 none false (.cls (fun c => c != '\n')), .eol]

/-- `^\s*\{\s*"ai_response"\s*:\s*"?(.*)$` (DOTALL), used by the final
cleanup (`re.match`). -/
def aiFinalRE : RE :=
  reCat [reWsStar, reLit "\x7b", reWsStar, reLit "\"ai_response\"",
         reWsStar, reLit ":", reWsStar, reOpt (reLit "\""),
         .grp 1 (.rep 0 none false (.cls (fun _ => true))), .eol]

def aiKey : List Char := "ai_response".toList

/-- First stage of `_parse_orchestrator_response`: code fence, clip between
first `{` and last `}` (only when both exist), then the three parse
attempts (direct, missing-comma fix, regex extraction from truncated
output, first-500-chars fallback).  The result is whatever `json.loads`
produced — not necessarily a dict. -/
def parseOrchFirst (text : List Char) : JVal :=
  let t0 := fenceStage text
  let t1 :=
    match findCharIdx lbrace t0, rfindCharIdx rbrace t0 with
    | some s, some e => sliceL t0 s (e + 1)
    | _, _ => t0
  match jsonLoads t1 with
  | some v => v
  | none =>
    match jsonLoads (commaFixSub t1) with
    | some v => v
    | none =>
      match reSearch aiRespRE t1 with
      | some (_, _, cs) =>
        let extracted :=
          match capGet cs 1 with
          | some (a, b) => unescapeExtracted (sliceL t1 a b)
          | none => []
        .obj [(aiKey, .str extracted),
              ("updated_differential".toList, .arr []),
              ("suggested_test".toList, .null)]
      | none =>
        .obj [(aiKey, .str (if t1.isEmpty then "I need to reconsider this case.".toList
                            else t1.take 500)),
              ("updated_differential".toList, .arr []),
              ("suggested_test".toList, .null)]

/-- Double-wrapped `ai_response` handling (second stage). -/
def unwrapStage (d : List (List Char × JVal)) : List (List Char × JVal) :=
  match dgetD d aiKey (.str []) with
  | .str ai =>
    if (stripL ai).head? = some lbrace then
      match jsonLoads ai with
      | some (.obj inner) => if dmem inner aiKey then dupdate d inner else d
      | some _ => d
      | none =>
        let stripped :=
          match reMatchStart aiPrefRE ai with
          | some (_, e, _) => ai.drop e
          | none => ai
        let stripped := reRemoveAll aiTailRE stripped
        let stripped := rstripSet ['"', rbrace, lbrace, ' ', '\n'] stripped
        if stripped.isEmpty then d else dset d aiKey (.str stripped)
    else d
  | _ => d

/-- Third stage: if `ai_response` is a dict, pull out its own
`ai_response` (or serialize the dict). -/
def dictFixStage (d : List (List Char × JVal)) : List (List Char × JVal) :=
  match dget d aiKey with
  | some (.obj inner) =>
    dset d aiKey (dgetD inner aiKey (.str (jsonDumps (.obj inner))))
  | _ => d

/-- Final cleanup: strip a remaining `{"ai_response":` prefix. -/
def finalCleanupStage (d : List (List Char × JVal)) : List (List Char × JVal) :=
  match dgetD d aiKey (.str []) with
  | .str fin =>
    match reMatchStart aiFinalRE fin with
    | some (_, _, cs) =>
      match capGet cs 1 with
      | some (a, b) => dset d aiKey (.str (rstripSet ['"', rbrace] (sliceL fin a b)))
      | none => d
    | none => d
  | _ => d

/-- `_parse_orchestrator_response`.  `Except.error` models the
`AttributeError` raised by `data.get(...)` when `json.loads` produced a
non-dict value. -/
def parseOrchestratorResponse (text : List Char) :
    Except (List Char) (List (List Char × JVal)) :=
  match parseOrchFirst text with
  | .obj d => .ok (finalCleanupStage (dictFixStage (unwrapStage d)))
  | _ => .error "AttributeError: object has no attribute get".toList


/-! ## `hallucination_check.py` -/

/-- `COMMON_LAB_TESTS`, in source order (duplicates included). -/
def COMMON_LAB_TESTS : List (List Char) :=
  ["hemoglobin", "hgb", "hb",
   "hematocrit", "hct",
   "wbc", "white blood cell", "leukocyte",
   "platelet", "plt",
   "ferritin",
   "iron", "serum iron",
   "tibc", "total iron binding capacity",
   "transferrin",
   "mcv", "mean corpuscular volume",
   "mch", "mean corpuscular hemoglobin",
   "mchc",
   "rdw",
   "rbc", "red blood cell", "erythrocyte",
   "crp", "c-reactive protein",
   "esr", "erythrocyte sedimentation rate",
   "creatinine", "cr",
   "bun", "blood urea nitrogen",
   "egfr", "gfr",
   "sodium", "na",
   "potassium", "k",
   "chloride", "cl",
   "bicarbonate", "co2",
   "glucose", "blood sugar",
   "hba1c", "a1c",
   "alt", "sgpt",
   "ast", "sgot",
   "alp", "alkaline phosphatase",
   "bilirubin",
   "albumin",
   "total protein",
   "tsh",
   "t3", "t4",
   "troponin",
   "bnP", "bnp",
   "d-dimer",
   "pt", "inr",
   "ptt",
   "lh", "fsh",
   "testosterone",
   "vitamin d", "25-oh vitamin d",
   "b12", "cobalamin",
   "folate",
   "tropinin"].map String.toList

/-- `NUMERIC_PATTERN`:
`\b(\d+(?:\.\d+)?)\s*(?:g/dl|mg/dl|…|pg)\b` with `re.IGNORECASE`. -/
def NUMERIC_PATTERN : RE :=
  reCat [.wb,
         .grp 1 (reCat [reDigitsPlus, reOpt (reCat [reLit ".", reDigitsPlus])]),
         reWsStar,
         reAlts [reLitCI "g/dl", reLitCI "mg/dl", reLitCI "mg/l", reLitCI "ng/ml",
                 reLitCI "pg/ml", reLitCI "mmol/l", reLitCI "meq/l", reLitCI "iu/l",
                 reLitCI "u/l",
                 reCat [reLitCI "×10", reOpt (reLitCI "^"), reLitCI "9/l"],
                 reCat [reLitCI "×10", reOpt (reLitCI "^"), reLitCI "3/μl"],
                 reLitCI "x10^9/l", reLitCI "%", reLitCI "k/μl", reLitCI "k/mm3",
                 reLitCI "fl", reLitCI "pg"],
         .wb]

/-- Decimal numeral (digits, optional fraction digits) as an exact rational
(Python `float(...)` of the matched group). -/
def parseDecimalQ (s : List Char) : ℚ :=
  let ds := s.takeWhile isDigitChar
  let iv : ℤ := digitsToInt ds
  match s.drop ds.length with
  | '.' :: t =>
    let fd := t.takeWhile isDigitChar
    rAdd (mkRat iv 1) (rDiv (mkRat (digitsToInt fd) 1) (ratPow10 fd.length))
  | _ => mkRat iv 1

/-- One entry of `extract_numeric_values`. -/
structure NumEntry where
  value : ℚ
  unit : List Char
  context : List Char
  fullMatch : List Char
  position : Nat
deriving DecidableEq

/-- `extract_numeric_values`. -/
def extractNumericValues (text : List Char) : List NumEntry :=
  (reFindAll NUMERIC_PATTERN text).map (fun m =>
    let s := m.1
    let e := m.2.1
    let full := sliceL text s e
    let g1 := match capGet m.2.2 1 with
      | some (a, b) => sliceL text a b
      | none => []
    let contextStart := s - 50
    let contextEnd := min text.length (e + 20)
    { value := parseDecimalQ g1,
      unit := stripL (replaceAll g1 [] full),
      context := stripL (sliceL text contextStart contextEnd),
      fullMatch := full,
      position := s })

/-- `normalize_lab_name`. -/
def normalizeLabName (name : List Char) : List Char :=
  let n := stripL (lowerL name)
  let aliases : List (List Char × List Char) :=
    [("hgb", "hemoglobin"), ("hb", "hemoglobin"), ("hct", "hematocrit"),
     ("plt", "platelet"), ("wbc", "wbc"), ("crp", "crp"), ("mcv", "mcv")].map
      (fun p => (p.1.toList, p.2.toList))
  match aliases.find? (fun p => p.1 == n) with
  | some (_, v) => v
  | none => n

/-- `normalize_unit`: lowercase, drop spaces, fold `×`→`x`, `μ`/`µ`→`u`. -/
def normalizeUnit (unit : List Char) : List Char :=
  ((lowerL unit).filter (fun c => c != ' ')).map (fun c =>
    if c = '×' then 'x' else if c = 'μ' ∨ c = 'µ' then 'u' else c)

/-- `_coerce_float` on a JSON value.  `float(...)` of a numeric string is
modelled for plain decimals; `NaN`/`Infinity` inputs coerce in Python to
non-finite floats which can never sit within `1e-3` of a finite extracted
value, so mapping them to `none` is observationally equal here. -/
def coerceFloat : JVal → Option ℚ
  | .num q => some q
  | .bool b => some (if b then mkRat 1 1 else mkRat 0 1)
  | .str s =>
    let t := stripL s
    let (neg, t1) := match t with
      | '-' :: r => (true, r)
      | '+' :: r => (false, r)
      | _ => (false, t)
    if t1 ≠ [] ∧ t1.all (fun c => isDigitChar c ∨ c = '.') ∧
        (t1.filter (fun c => c == '.')).length ≤ 1 ∧ t1.any isDigitChar then
      some (if neg then rNeg (parseDecimalQ t1) else parseDecimalQ t1)
    else none
  | _ => none

/-- Python `str(...)` of a JSON value (only ever applied to unit fields). -/
def pyStr : JVal → List Char
  | .str s => s
  | .num q => if q.den = 1 then (toString q.num).toList else (toString q).toList
  | .bool true => "True".toList
  | .bool false => "False".toList
  | .null => "None".toList
  | v => jsonDumps v

/-- `find_closest_lab`: nearest vocabulary mention by character distance
(first-found wins ties via strict `<`), then normalized. -/
def findClosestLab (text : List Char) (valuePosition : Nat) : Option (List Char) :=
  let textLower := lowerL text
  let best := COMMON_LAB_TESTS.foldl (fun acc lab =>
    (reFindAll (reCat [.wb, reLitCI (String.mk lab), .wb]) textLower).foldl
      (fun acc2 m =>
        let dist := ((m.1 : ℤ) - (valuePosition : ℤ)).natAbs
        match acc2 with
        | some (bd, _) => if dist < bd then some (dist, lab) else acc2
        | none => some (dist, lab)) acc) none
  match best with
  | some (_, lab) => some (normalizeLabName lab)
  | none => none

/-- One flagged entry of `check_hallucination`. -/
structure HallEntry where
  test : List Char
  value : ℚ
  unit : List Char
  context : List Char
deriving DecidableEq

/-- Result record of `check_hallucination`. -/
structure HallucinationResult where
  has_hallucination : Bool
  hallucinated_values : List HallEntry
  warnings : List (List Char)
deriving DecidableEq

/-- The allowed (value, normalized-unit) pairs built from the provided lab
values and patient history. -/
def allowedValues (providedLabValues : List (List Char × JVal))
    (providedHistory : Option (List Char)) : List (ℚ × List Char) :=
  let fromLabs := providedLabValues.filterMap (fun p =>
    match p.2 with
    | .obj details =>
      match coerceFloat (dgetD details "value".toList .null) with
      | some v =>
        let unit := dget details "unit".toList
        match unit with
        | some u => if pyTruthy u then some (v, normalizeUnit (pyStr u)) else none
        | none => none
      | none => none
    | _ => none)
  let fromHistory :=
    match providedHistory with
    | some h => if h ≠ [] then (extractNumericValues h).map (fun e => (e.value, normalizeUnit e.unit)) else []
    | none => []
  fromLabs ++ fromHistory

/-- The `1e-3` proximity test of the main loop. -/
def isAllowedValue (allowed : List (ℚ × List Char)) (e : NumEntry) : Bool :=
  allowed.any (fun av =>
    ratAbs (rSub av.1 e.value) < mkRat 1 1000 ∧ av.2 == normalizeUnit e.unit)

/-- The warning string built for a flagged entry. -/
def hallWarning (fullMatch closestLab : List Char) : List Char :=
  "Potential hallucination: '".toList ++ fullMatch ++ "' for ".toList ++
  closestLab ++ " not in provided data".toList

/-- One iteration of the main loop of `check_hallucination`. -/
def hallStep (generatedText : List Char) (allowed : List (ℚ × List Char))
    (providedLabsNormalized : List (List Char))
    (res : HallucinationResult) (e : NumEntry) : HallucinationResult :=
  if isAllowedValue allowed e then res
  else
    match findClosestLab generatedText e.position with
    | some closestLab =>
      if providedLabsNormalized.contains closestLab then res
      else
        { has_hallucination := true,
          hallucinated_values := res.hallucinated_values ++
            [{ test := closestLab, value := e.value, unit := e.unit, context := e.context }],
          warnings := res.warnings ++ [hallWarning e.fullMatch closestLab] }
    | none => res

/-- `check_hallucination`: flag every extracted numeric value that is not
within tolerance of an allowed pair and whose nearest lab mention is not
among the provided lab names. -/
def checkHallucination (generatedText : List Char)
    (providedLabValues : Option (List (List Char × JVal)) := none)
    (providedHistory : Option (List Char) := none) : HallucinationResult :=
  let provided := providedLabValues.getD []
  let providedLabsNormalized := provided.map (fun p => normalizeLabName p.1)
  let allowed := allowedValues provided providedHistory
  (extractNumericValues generatedText).foldl
    (hallStep generatedText allowed providedLabsNormalized)
    { has_hallucination := false, hallucinated_values := [], warnings := [] }


/-! ## `gemini_orchestrator.extract_citations` -/

/-- `GUIDELINE_URLS`, in source order. -/
def GUIDELINE_URLS : List (List Char × List Char) :=
  [("WHO_MENINGITIS", "https://www.who.int/publications/i/item/9789240108042"),
   ("WHO_TB", "https://www.ncbi.nlm.nih.gov/books/NBK607290/"),
   ("WHO_HEPATITIS_B", "https://www.who.int/publications/i/item/9789240090903"),
   ("WHO", "https://www.who.int/publications/i/"),
   ("CDC_SEPSIS", "https://www.cdc.gov/sepsis/hcp/core-elements/index.html"),
   ("CDC_LEGIONELLA", "https://www.cdc.gov/legionella/hcp/clinical-guidance/index.html"),
   ("CDC_RESPIRATORY", "https://www.cdc.gov/respiratory-viruses/guidance/index.html"),
   ("CDC", "https://www.cdc.gov/"),
   ("USPSTF_BREAST", "https://www.uspreventiveservicestaskforce.org/uspstf/recommendation/breast-cancer-screening"),
   ("USPSTF_COLORECTAL", "https://www.uspreventiveservicestaskforce.org/uspstf/recommendation/colorectal-cancer-screening"),
   ("USPSTF_DIABETES", "https://www.uspreventiveservicestaskforce.org/uspstf/recommendation/screening-for-prediabetes-and-type-2-diabetes"),
   ("USPSTF_CARDIO", "https://www.uspreventiveservicestaskforce.org/uspstf/recommendation/statin-use-in-adults-preventive-medication"),
   ("USPSTF", "https://www.uspreventiveservicestaskforce.org/uspstf/recommendation-topics"),
   ("PMC", "https://pmc.ncbi.nlm.nih.gov/articles/PMC7112285/"),
   ("PubMed", "https://pmc.ncbi.nlm.nih.gov/articles/PMC7112285/"),
   ("IDSA", "https://www.idsociety.org/practice-guideline/community-acquired-pneumonia-cap-in-adults/"),
   ("ATS", "https://www.thoracic.org/practice-guidelines/"),
   ("ATS/IDSA", "https://www.idsociety.org/practice-guideline/community-acquired-pneumonia-cap-in-adults/"),
   ("BTS", "https://www.brit-thoracic.org.uk/document-library/guidelines/pneumonia-adults/"),
   ("SCCM", "https://www.sccm.org/survivingsepsiscampaign/guidelines-and-resources/"),
   ("ESICM", "https://www.esicm.org/guidelines/"),
   ("SSC", "https://www.sccm.org/survivingsepsiscampaign/guidelines-and-resources/"),
   ("NCCN", "https://www.nccn.org/guidelines/"),
   ("ASCO", "https://www.asco.org/practice-patients/guidelines"),
   ("ESMO", "https://www.esmo.org/guidelines"),
   ("AAD_MELANOMA", "https://www.guidelinecentral.com/guideline/21823/"),
   ("AAD", "https://www.aad.org/clinical-guidelines"),
   ("AADA", "https://www.aad.org/clinical-guidelines"),
   ("ACR", "https://www.acr.org/Clinical-Resources/ACR-Appropriateness-Criteria"),
   ("ADA", "https://professional.diabetes.org/guidelines-recommendations"),
   ("ADAD", "https://professional.diabetes.org/guidelines-recommendations"),
   ("AHA", "https://professional.heart.org/guidelines-and-statements"),
   ("ACC", "https://www.acc.org/guidelines"),
   ("ACC/AHA", "https://professional.heart.org/guidelines-and-statements"),
   ("CHEST", "https://www.chestnet.org/guidelines-and-research"),
   ("NICE", "https://www.nice.org.uk/guidance")].map
    (fun p => (p.1.toList, p.2.toList))

/-- `GUIDELINE_URLS.get(k, "")`. -/
def urlOf (k : String) : List Char :=
  match GUIDELINE_URLS.find? (fun p => p.1 == k.toList) with
  | some (_, u) => u
  | none => []

/-- The `ORGS` alternation, in source order. -/
def ORGS : List String :=
  ["WHO_MENINGITIS", "WHO_HEPATITIS_B", "WHO_TB", "CDC_LEGIONELLA",
   "CDC_RESPIRATORY", "CDC_SEPSIS", "USPSTF_COLORECTAL", "USPSTF_DIABETES",
   "USPSTF_CARDIO", "USPSTF_BREAST", "AAD_MELANOMA", "USPSTF", "SCCM",
   "ESICM", "CHEST", "NCCN", "ASCO", "ESMO", "AAD", "ACR", "ADA", "AHA",
   "ACC", "IDSA", "CDC", "ATS", "WHO", "NICE", "BTS", "PMC", "PubMed", "SSC"]

/-- The `COMBO_ORGS` alternation. -/
def COMBO_ORGS : List String := ["ATS/IDSA", "ACC/AHA", "Surviving Sepsis Campaign"]

/-- `({COMBO_ORGS}|{ORGS})` (IGNORECASE). -/
def orgAltRE : RE := reAlts ((COMBO_ORGS ++ ORGS).map reLitCI)

/-- `ORG_ALIASES`, in source (dict-literal) order. -/
def ORG_ALIASES : List (List Char × List Char) :=
  [("WORLD HEALTH ORGANIZATION MENINGITIS", "WHO_MENINGITIS"),
   ("WHO MENINGITIS", "WHO_MENINGITIS"),
   ("WORLD HEALTH ORGANIZATION TB", "WHO_TB"),
   ("WORLD HEALTH ORGANIZATION TUBERCULOSIS", "WHO_TB"),
   ("WHO TB", "WHO_TB"),
   ("WORLD HEALTH ORGANIZATION HEPATITIS B", "WHO_HEPATITIS_B"),
   ("WHO HEPATITIS B", "WHO_HEPATITIS_B"),
   ("CDC SEPSIS", "CDC_SEPSIS"),
   ("CDC HOSPITAL SEPSIS", "CDC_SEPSIS"),
   ("CDC LEGIONELLA", "CDC_LEGIONELLA"),
   ("CDC RESPIRATORY", "CDC_RESPIRATORY"),
   ("CDC RESPIRATORY VIRUS", "CDC_RESPIRATORY"),
   ("US PREVENTIVE SERVICES TASK FORCE BREAST", "USPSTF_BREAST"),
   ("USPSTF BREAST", "USPSTF_BREAST"),
   ("USPSTF COLORECTAL", "USPSTF_COLORECTAL"),
   ("USPSTF DIABETES", "USPSTF_DIABETES"),
   ("USPSTF STATIN", "USPSTF_CARDIO"),
   ("USPSTF CARDIOVASCULAR", "USPSTF_CARDIO"),
   ("AAD MELANOMA", "AAD_MELANOMA"),
   ("AAD MELANOMA GUIDELINES", "AAD_MELANOMA"),
   ("AMERICAN ACADEMY OF DERMATOLOGY MELANOMA", "AAD_MELANOMA"),
   ("PRIMARY CARE CLINICS", "PMC"),
   ("PUBMED CENTRAL", "PMC"),
   ("BRITISH THORACIC SOCIETY", "BTS"),
   ("INFECTIOUS DISEASES SOCIETY OF AMERICA", "IDSA"),
   ("AMERICAN THORACIC SOCIETY", "ATS"),
   ("CENTERS FOR DISEASE CONTROL", "CDC"),
   ("CENTER FOR DISEASE CONTROL", "CDC"),
   ("SURVIVING SEPSIS CAMPAIGN", "SSC"),
   ("SOCIETY OF CRITICAL CARE MEDICINE", "SCCM"),
   ("EUROPEAN SOCIETY OF INTENSIVE CARE MEDICINE", "ESICM"),
   ("US PREVENTIVE SERVICES TASK FORCE", "USPSTF"),
   ("U S PREVENTIVE SERVICES TASK FORCE", "USPSTF"),
   ("PREVENTIVE SERVICES TASK FORCE", "USPSTF"),
   ("WORLD HEALTH ORGANIZATION", "WHO")].map
    (fun p => (p.1.toList, p.2.toList))

/-- `(?:the\s+)?` (IGNORECASE). -/
def optThe : RE := reOpt (reCat [reLitCI "the", reWsPlus])

/-- `[^)]{lo,hi}?`. -/
def notParenLazy (hi : Nat) : RE := .rep 0 (some hi) true (.cls (fun c => c != ')'))

/-- `[^,.]{lo,hi}?`. -/
def notCommaDotLazy (hi : Nat) : RE :=
  .rep 0 (some hi) true (.cls (fun c => c != ',' && c != '.'))

/-- Keyword alternation of pattern 1:
`Guidelines?|Consensus\s+Guidelines|Standards?|Appropriateness\s+Criteria|recommendations?|guidance|Criteria|Statements?`. -/
def keyword1RE : RE :=
  reAlts [reCat [reLitCI "Guideline", reOpt (reLitCI "s")],
          reCat [reLitCI "Consensus", reWsPlus, reLitCI "Guidelines"],
          reCat [reLitCI "Standard", reOpt (reLitCI "s")],
          reCat [reLitCI "Appropriateness", reWsPlus, reLitCI "Criteria"],
          reCat [reLitCI "recommendation", reOpt (reLitCI "s")],
          reLitCI "guidance",
          reLitCI "Criteria",
          reCat [reLitCI "Statement", reOpt (reLitCI "s")]]

/-- Keyword alternation of pattern 2:
`Guidelines?|Standards?|recommendations?|guidance|criteria`. -/
def keyword2RE : RE :=
  reAlts [reCat [reLitCI "Guideline", reOpt (reLitCI "s")],
          reCat [reLitCI "Standard", reOpt (reLitCI "s")],
          reCat [reLitCI "recommendation", reOpt (reLitCI "s")],
          reLitCI "guidance",
          reLitCI "criteria"]

/-- `According to|Per|Based on|Following`. -/
def attribWordsRE : RE :=
  reAlts [reLitCI "According to", reLitCI "Per", reLitCI "Based on", reLitCI "Following"]

/-- Pattern 1: parenthesized citation with a guideline keyword and a year. -/
def citationPattern1 : RE :=
  reCat [reLit "(", optThe, .grp 1 orgAltRE, .wb, notParenLazy 150, keyword1RE, .wb,
         notParenLazy 100, reYear, notParenLazy 10, reLit ")"]

/-- Pattern 2: attribution phrase with a keyword and a year. -/
def attributionPattern : RE :=
  reCat [attribWordsRE, reWsPlus, optThe, .grp 1 orgAltRE, .wb,
         notCommaDotLazy 100, keyword2RE, notCommaDotLazy 60, reYear]

/-- Pattern 3: simple `(ORG Year)`. -/
def simplePattern : RE :=
  reCat [reLit "(", .grp 1 orgAltRE,
         .rep 1 none false (.cls (fun c => c == '/' || c == ',' || isPyWs c)),
         reYear, reLit ")"]

/-- `(alias1|alias2|…)` over the `ORG_ALIASES` keys, in order (IGNORECASE). -/
def aliasAltRE : RE :=
  reAlts (ORG_ALIASES.map (fun p => RE.lit true (lowerL p.1)))

/-- Pattern 4: parenthesized citation with an alias name and a year. -/
def aliasPattern : RE :=
  reCat [reLit "(", optThe, .grp 1 aliasAltRE,
         .rep 0 none true (.cls (fun c => c != ')')), reYear,
         .rep 0 none true (.cls (fun c => c != ')')), reLit ")"]

/-- Pattern 5: attribution phrase with an alias name and a year. -/
def attributionAliasPattern : RE :=
  reCat [attribWordsRE, reWsPlus, optThe, .grp 1 aliasAltRE,
         notCommaDotLazy 100, reYear]

/-- Overlap test of the collection loop:
`not (span[1] <= ex[0] or span[0] >= ex[1])`. -/
def spansOverlap (a b : Nat × Nat) : Bool :=
  !(a.2 ≤ b.1 || b.2 ≤ a.1)

/-- Collect the matches of all five patterns in priority order, skipping
any span that overlaps an already-collected one. -/
def collectCitationMatches (text : List Char) : List ((Nat × Nat) × List Char) :=
  [citationPattern1, attributionPattern, simplePattern, aliasPattern,
   attributionAliasPattern].foldl (fun acc pat =>
    (reFindAll pat text).foldl (fun acc2 m =>
      let span := (m.1, m.2.1)
      if acc2.any (fun e => spansOverlap span e.1) then acc2
      else acc2 ++ [(span, sliceL text m.1 m.2.1)]) acc) []

/-- The keyword list used to disambiguate AAD (dermatology) from ADA
(diabetes). -/
def dermKeywords : List String :=
  ["DERMATOLOGY", "SKIN", "MELANOMA", "PSORIASIS", "ECZEMA"]

/-- Source/URL resolution for one collected citation: alias lookup first,
then the combined-organization and sub-entry `elif` chain of the source. -/
def resolveSource (text : List Char) (span : Nat × Nat) (citationText : List Char) :
    List Char × List Char :=
  let cu := upperL citationText
  let has := fun (s : String) => containsSub cu s.toList
  match ORG_ALIASES.find? (fun p => containsSub cu p.1) with
  | some (_, canonical) => (canonical, (GUIDELINE_URLS.find? (fun p => p.1 == canonical)).elim [] (fun p => p.2))
  | none =>
    if has "ATS/IDSA" || (has "ATS" && has "IDSA") then ("ATS/IDSA".toList, urlOf "ATS/IDSA")
    else if has "ACC/AHA" || (has "ACC" && has "AHA") then ("ACC/AHA".toList, urlOf "ACC/AHA")
    else if has "SURVIVING SEPSIS CAMPAIGN" || has "SSC" then ("SSC".toList, urlOf "SSC")
    else if has "SCCM" then ("SCCM".toList, urlOf "SCCM")
    else if has "ESICM" then ("ESICM".toList, urlOf "ESICM")
    else if has "BTS" then ("BTS".toList, urlOf "BTS")
    else if has "PUBMED" || has "PMC" then ("PMC".toList, urlOf "PMC")
    else if has "ADA" && has "AAD" then
      let cw := upperL (sliceL text (span.1 - 200) (min text.length (span.2 + 200)))
      if dermKeywords.any (fun w => containsSub cw w.toList) then ("AAD".toList, urlOf "AAD")
      else ("ADA".toList, urlOf "ADA")
    else if has "WHO MENINGITIS" || (has "MENINGITIS" && has "WHO") then
      ("WHO_MENINGITIS".toList, urlOf "WHO_MENINGITIS")
    else if has "WHO TB" || has "WHO TUBERCULOSIS" || (has "TB" && has "WHO") then
      ("WHO_TB".toList, urlOf "WHO_TB")
    else if has "WHO HEPATITIS" || (has "HEPATITIS" && has "WHO") then
      ("WHO_HEPATITIS_B".toList, urlOf "WHO_HEPATITIS_B")
    else if has "CDC SEPSIS" || has "HOSPITAL SEPSIS" then ("CDC_SEPSIS".toList, urlOf "CDC_SEPSIS")
    else if has "CDC LEGIONELLA" || has "LEGIONELLA" then ("CDC_LEGIONELLA".toList, urlOf "CDC_LEGIONELLA")
    else if has "CDC RESPIRATORY" || has "RESPIRATORY VIRUS" then ("CDC_RESPIRATORY".toList, urlOf "CDC_RESPIRATORY")
    else if has "USPSTF BREAST" || has "BREAST CANCER SCREENING" then ("USPSTF_BREAST".toList, urlOf "USPSTF_BREAST")
    else if has "USPSTF COLORECTAL" || has "COLORECTAL CANCER" then ("USPSTF_COLORECTAL".toList, urlOf "USPSTF_COLORECTAL")
    else if has "USPSTF DIABETES" || (has "PREDIABETES" && has "USPSTF") then ("USPSTF_DIABETES".toList, urlOf "USPSTF_DIABETES")
    else if has "USPSTF STATIN" || has "USPSTF CARDIOVASCULAR" then ("USPSTF_CARDIO".toList, urlOf "USPSTF_CARDIO")
    else if has "USPSTF" then ("USPSTF".toList, urlOf "USPSTF")
    else if has "NCCN" then ("NCCN".toList, urlOf "NCCN")
    else if has "ASCO" then ("ASCO".toList, urlOf "ASCO")
    else if has "ESMO" then ("ESMO".toList, urlOf "ESMO")
    else if has "AAD MELANOMA" || (has "MELANOMA" && has "AAD") then ("AAD_MELANOMA".toList, urlOf "AAD_MELANOMA")
    else if has "AAD" then ("AAD".toList, urlOf "AAD")
    else if has "ACR" then ("ACR".toList, urlOf "ACR")
    else if has "ADA" then ("ADA".toList, urlOf "ADA")
    else if has "AHA" then ("AHA".toList, urlOf "AHA")
    else if has "CHEST" then ("CHEST".toList, urlOf "CHEST")
    else if has "WHO" then ("WHO".toList, urlOf "WHO")
    else if has "NICE" then ("NICE".toList, urlOf "NICE")
    else if has "IDSA" then ("IDSA".toList, urlOf "IDSA")
    else if has "CDC" then ("CDC".toList, urlOf "CDC")
    else if has "ACC" then ("ACC".toList, urlOf "ACC")
    else if has "ATS" then ("ATS".toList, urlOf "ATS")
    else ("Unknown".toList, [])

/-- A resolved citation record. -/
structure Citation where
  text : List Char
  url : List Char
  source : List Char
deriving DecidableEq

/-- Build the citation record for one collected match (formatting plus the
`AAD_MELANOMA` output remap). -/
def buildCitation (text : List Char) (m : (Nat × Nat) × List Char) : Citation :=
  let (source, url) := resolveSource text m.1 m.2
  let formatted := if m.2.head? = some '(' then m.2 else '(' :: m.2 ++ [')']
  if source = "AAD_MELANOMA".toList then
    { text := formatted, url := urlOf "AAD", source := "AAD".toList }
  else
    { text := formatted, url := url, source := source }

/-- `^\(?\s*(?:According to the|Per the|Based on the)\s+` (IGNORECASE). -/
def citPrefDropRE : RE :=
  reCat [reOpt (reLit "("), reWsStar,
         reAlts [reLitCI "According to the", reLitCI "Per the", reLitCI "Based on the"],
         reWsPlus]

/-- `_normalize_citation_key`: strip a common attribution prefix, then
`source:year` with the first four-digit run as the year. -/
def normalizeCitationKey (c : Citation) : List Char :=
  let t := match reMatchStart citPrefDropRE c.text with
    | some (_, e, _) => c.text.drop e
    | none => c.text
  let year := match reSearch reYear t with
    | some (a, b, _) => sliceL t a b
    | none => []
  c.source ++ ':' :: year

/-- Order-preserving dedup by normalized key. -/
def dedupCitations (cs : List Citation) : List Citation :=
  (cs.foldl (fun acc c =>
    let key := normalizeCitationKey c
    if acc.1.contains key then acc else (acc.1 ++ [key], acc.2 ++ [c]))
    ([], [])).2

/-- `extract_citations`: the input text (returned unchanged) and the
deduplicated citation list. -/
def extractCitations (text : List Char) : List Char × List Citation :=
  (text, dedupCitations ((collectCitationMatches text).map (buildCitation text)))


/-! ## `ClinicalState` and `process_debate_turn`

The two orchestrator-LLM calls, the MedGemma call and the episode-summary
LLM call are external text-generation services; their outputs enter the
model as oracle inputs (`TurnOracles`).  Prompt construction
(`to_summary`, `_build_*_prompt`) only feeds those services and is not
modelled.  Python mutates `clinical_state` in place; the model returns the
updated state, with exceptions modelled as `Except.error`. -/

/-- The `ClinicalState` dataclass.  Rounds are integers (`ℤ`) so that the
`debate_round ≥ last_episode_round ≥ 0` invariant is a real statement. -/
structure ClinicalState where
  patient_history : List Char := []
  lab_values : List (List Char × JVal) := []
  differential : JVal := .arr []
  key_findings : List JVal := []
  ruled_out : List JVal := []
  debate_round : ℤ := 0
  image_context : List Char := []
  episode_summaries : List (List Char) := []
  last_episode_round : ℤ := 0

/-- Python iteration (`list.extend`, `for … in …`) over a JSON value. -/
def pyIter : JVal → Except (List Char) (List JVal)
  | .arr xs => .ok xs
  | .str s => .ok (s.map (fun c => .str [c]))
  | .obj fs => .ok (fs.map (fun p => .str p.1))
  | _ => .error "TypeError: object is not iterable".toList

/-- `DEFAULT_TIMEOUT_SECONDS` (`180.0`), as Python prints it. -/
def DEFAULT_TIMEOUT_STR : List Char := "180.0".toList

/-- The text of `_generate_timeout_response` before the quoted question. -/
def timeoutPre : List Char :=
  "The medical analysis is taking longer than expected (>".toList ++ DEFAULT_TIMEOUT_STR ++
  "s).\n\nThis typically happens when the question involves complex multi-part reasoning.\n\nRECOMMENDATIONS:\n1. Try breaking your question into smaller, focused parts\n2. Ask about one specific symptom or finding at a time\n3. Focus on the most critical differential diagnoses first\n\nFor example, instead of asking multiple questions at once:\n- Ask: \"What could explain the low platelets?\"\n- Then: \"Should we test for Legionella?\"\n\nYour current question was: \"".toList

/-- The text of `_generate_timeout_response` after the quoted question. -/
def timeoutSuf : List Char :=
  "...\"\n\nPlease try rephrasing as a single, focused question.".toList

/-- `_generate_timeout_response`: the canned guidance quoting the first 150
characters of the question. -/
def generateTimeoutResponse (question : List Char) : List Char :=
  timeoutPre ++ question.take 150 ++ timeoutSuf

/-- A caller-supplied debate round (a Python dict). -/
abbrev Round := List (List Char × JVal)

/-- `_create_episode_summary`: empty unless ≥ 4 rounds and an initialized
client; otherwise the stripped LLM text, or the deterministic fallback
sentence when the LLM call raises. -/
def createEpisodeSummary (rounds : List Round) (clientSome : Bool)
    (llm : Except (List Char) (List Char)) : List Char :=
  if rounds.length < 4 ∨ ¬clientSome then []
  else
    match llm with
    | .ok t => stripL t
    | .error _ =>
      "Debate rounds covered ".toList ++ (toString rounds.length).toList ++
      " exchanges about differential diagnosis.".toList

/-- Oracle outputs of the external calls made during one turn. -/
structure TurnOracles where
  queryText : List Char
  specialist : Option (List Char)
  synthesisText : List Char
  episodeLLM : Except (List Char) (List Char)

/-- Step 2 of `process_debate_turn`: the MedGemma analysis — the model
answer, or on `FutureTimeoutError` the canned timeout guidance. -/
def specialistAnswer (o : TurnOracles) (question : List Char) : List Char :=
  match o.specialist with
  | some r => r
  | none => generateTimeoutResponse question

/-- `previous_rounds[-5:]`. -/
def takeLast (n : Nat) (l : List Round) : List Round := l.drop (l.length - n)

/-- A `Citation` as the JSON-ish dict stored into the result. -/
def citationToJ (c : Citation) : JVal :=
  .obj [("text".toList, .str c.text), ("url".toList, .str c.url),
        ("source".toList, .str c.source)]

/-- The hierarchical-summarization tail of `process_debate_turn`: create an
episode summary every 5 rounds, given at least one previous round, and
record the round at which it was created. -/
def episodeStep (clientSome : Bool) (llm : Except (List Char) (List Char))
    (previousRounds : List Round) (st2 : ClinicalState) : ClinicalState :=
  let roundsSinceLastEpisode := st2.debate_round - st2.last_episode_round
  if 5 ≤ roundsSinceLastEpisode ∧ previousRounds.isEmpty = false then
    let episodeRounds := takeLast 5 previousRounds
    let episodeSummary := createEpisodeSummary episodeRounds clientSome llm
    if episodeSummary ≠ [] then
      { st2 with episode_summaries := st2.episode_summaries ++ [episodeSummary],
                 last_episode_round := st2.debate_round }
    else st2
  else st2

/-- `process_debate_turn`: increment the round, formulate (oracle), query
the specialist under timeout, synthesize (oracle), parse, extract
citations, apply state updates, maybe append an episode summary. -/
def processDebateTurn (clientSome : Bool) (o : TurnOracles)
    (userChallenge : List Char) (st : ClinicalState)
    (previousRounds : List Round) (retrievedContext : List Char := []) :
    Except (List Char) ((List (List Char × JVal)) × ClinicalState) :=
  if clientSome = false then
    .error "Orchestrator not initialized. Call initialize() first.".toList
  else
    let st1 : ClinicalState := { st with debate_round := st.debate_round + 1 }
    let medgemmaQuestion := stripL o.queryText
    let _analysis := specialistAnswer o medgemmaQuestion
    let _ := (userChallenge, retrievedContext)
    match parseOrchestratorResponse o.synthesisText with
    | .error e => .error e
    | .ok result0 =>
      match dgetD result0 aiKey (.str []) with
      | .str aiText =>
        let citations := (extractCitations aiText).2
        let result1 := dset result0 "citations".toList (.arr (citations.map citationToJ))
        let result2 := dset result1 "has_guidelines".toList (.bool (citations.length > 0))
        let kfv := dgetD result2 "key_findings_update".toList .null
        match (if pyTruthy kfv then pyIter kfv else .ok []) with
        | .error e => .error e
        | .ok kf =>
          let rov := dgetD result2 "newly_ruled_out".toList .null
          match (if pyTruthy rov then pyIter rov else .ok []) with
          | .error e => .error e
          | .ok ro =>
            let udv := dgetD result2 "updated_differential".toList .null
            let st2 : ClinicalState :=
              { st1 with key_findings := st1.key_findings ++ kf,
                         ruled_out := st1.ruled_out ++ ro,
                         differential := if pyTruthy udv then udv else st1.differential }
            .ok (result2, episodeStep clientSome o.episodeLLM previousRounds st2)
      | _ => .error "TypeError: expected string or bytes-like object".toList

/-! ## `main.py`: session store and the debate-turn handlers

Pydantic response models are carried as plain records (their field
validation is out of scope); the RAG retrieval task catches its own
exceptions and degrades to an empty context, so it does not appear. -/

/-- A parsed `Diagnosis` as produced by `_parse_differential` (fields keep
their dynamic values). -/
structure Diagnosis where
  name : JVal
  probability : JVal
  supporting_evidence : JVal
  against_evidence : JVal
  suggested_tests : JVal

/-- Python `a or b`. -/
def pyOrJ (a b : JVal) : JVal := if pyTruthy a then a else b

/-- `dx.get(k)` (`None` when absent). -/
def dgetN (d : List (List Char × JVal)) (k : String) : JVal :=
  (dget d k.toList).getD .null

/-- `_parse_differential`: robust field-name handling; non-dict entries are
skipped; a non-iterable argument raises. -/
def parseDifferential (updatedDiff : JVal) : Except (List Char) (List Diagnosis) := do
  let items ← pyIter updatedDiff
  pure (items.filterMap (fun dx =>
    match dx with
    | .obj d => some
      { name := pyOrJ (dgetN d "name") (pyOrJ (dgetN d "diagnosis")
          (pyOrJ (dgetN d "diagnosis_name") (JVal.s "Unknown"))),
        probability := pyOrJ (dgetN d "probability") (pyOrJ (dgetN d "likelihood")
          (JVal.s "medium")),
        supporting_evidence := pyOrJ (dgetN d "supporting_evidence")
          (pyOrJ (dgetN d "supporting") (pyOrJ (dgetN d "evidence_for") (.arr []))),
        against_evidence := pyOrJ (dgetN d "against_evidence")
          (pyOrJ (dgetN d "against") (pyOrJ (dgetN d "evidence_against") (.arr []))),
        suggested_tests := pyOrJ (dgetN d "suggested_tests")
          (pyOrJ (dgetN d "tests") (pyOrJ (dgetN d "workup") (.arr []))) }
    | _ => none))

/-- `validate_debate_response`: gather `ai_response` and the evidence lists
of the updated differential, join, and run the hallucination check.
Dynamic-typing failures (joining non-strings, iterating non-lists) raise. -/
def validateDebateResponse (response : List (List Char × JVal))
    (labs : List (List Char × JVal)) (history : List Char) :
    Except (List Char) HallucinationResult := do
  let part1 : List JVal :=
    if dmem response aiKey then [dgetN response "ai_response"] else []
  let diags ←
    if dmem response "updated_differential".toList then
      pyIter (dgetD response "updated_differential".toList (.arr []))
    else pure []
  let evidence ← diags.foldlM (fun (acc : List JVal) diag => do
    match diag with
    | .obj d => do
      let sup ← pyIter (dgetD d "supporting_evidence".toList (.arr []))
      let ag ← pyIter (dgetD d "against_evidence".toList (.arr []))
      pure (acc ++ sup ++ ag)
    | _ => throw "AttributeError: object has no attribute get".toList) []
  let strs ← (part1 ++ evidence).mapM (fun v =>
    match v with
    | .str s => pure s
    | _ => throw "TypeError: sequence item: expected str instance".toList)
  let combined := (strs.intersperse " ".toList).flatten
  pure (checkHallucination combined (some labs) (some history))

/-- The debate-turn request (validated upstream by pydantic). -/
structure DebateTurnRequest where
  patient_history : List Char
  lab_values : List (List Char × JVal)
  current_differential : List Diagnosis
  previous_rounds : List Round
  user_challenge : List Char
  session_id : Option (List Char) := none
  image_context : Option (List Char) := none

/-- The debate-turn response record. -/
structure DTResponse where
  ai_response : JVal
  updated_differential : List Diagnosis
  suggested_test : JVal
  session_id : Option (List Char) := none
  orchestrated : Bool := false
  citations : JVal := .arr []
  has_guidelines : JVal := .bool false

/-- `MAX_SESSIONS` default (`os.getenv("MAX_SESSIONS", "500")`). -/
def MAX_SESSIONS_DEFAULT : Nat := 500

/-- The session-creation fragment of `_debate_turn_orchestrated`: if the
id is new and the table is at capacity, `next(iter(_sessions))` names the
earliest-created session still present and it is popped; then the new
session is inserted.  (`next(iter({}))` on an empty table raises.) -/
def getOrCreateSession (sessions : List (List Char × ClinicalState))
    (sid : List Char) (fresh : ClinicalState) (maxSessions : Nat) :
    Except (List Char) (List (List Char × ClinicalState)) :=
  if sessions.any (fun p => p.1 == sid) then .ok sessions
  else if sessions.length ≥ maxSessions then
    match sessions with
    | [] => .error "StopIteration".toList
    | _ :: rest => .ok (rest ++ [(sid, fresh)])
  else .ok (sessions ++ [(sid, fresh)])

/-- Oracle outcomes of the external calls in the MedGemma-only fallback. -/
structure FallbackOracles where
  getModel : Except (List Char) Unit
  generate1 : Except (List Char) (List Char)
  generate2 : Except (List Char) (List Char)

/-- The templated apologetic reply of the fallback's `except` branch. -/
def apologeticResponse (e : List Char) : List Char :=
  "I encountered a processing error, but here's what I can say: ".toList ++
  e.take 200 ++ ". Please try rephrasing your challenge.".toList

/-- The `try` body of `_debate_turn_medgemma_only` (everything that can
raise). -/
def medgemmaOnlyAttempt (req : DebateTurnRequest) (fb : FallbackOracles) :
    Except (List Char) DTResponse :=
  match fb.getModel with
  | .error e => .error e
  | .ok _ =>
    match fb.generate1 with
    | .error e => .error e
    | .ok response =>
      match extractJson response with
      | .error e => .error e
      | .ok data =>
        match data with
        | .obj d0 =>
          match validateDebateResponse d0 req.lab_values req.patient_history with
          | .error e => .error e
          | .ok validation =>
            let retried : Except (List Char) (List (List Char × JVal)) :=
              if validation.has_hallucination then
                match fb.generate2 with
                | .error e => .error e
                | .ok response2 =>
                  match extractJson response2 with
                  | .error e => .error e
                  | .ok (.obj d2) => .ok d2
                  | .ok _ => .error "AttributeError: object has no attribute get".toList
              else .ok d0
            match retried with
            | .error e => .error e
            | .ok d =>
              match parseDifferential (dgetD d "updated_differential".toList (.arr [])) with
              | .error e => .error e
              | .ok diagnoses =>
                match dgetD d aiKey (.str []) with
                | .str aiText =>
                  let citations := (extractCitations aiText).2
                  .ok { ai_response := .str aiText,
                        updated_differential :=
                          if diagnoses.isEmpty then req.current_differential else diagnoses,
                        suggested_test := dgetN d "suggested_test",
                        orchestrated := false,
                        citations := .arr (citations.map citationToJ),
                        has_guidelines := .bool (citations.length > 0) }
                | _ => .error "TypeError: expected string or bytes-like object".toList
        | _ => .error "AttributeError: object has no attribute get".toList

/-- `_debate_turn_medgemma_only`: the whole body runs under one
`try`/`except`; on any failure a graceful templated response with
`orchestrated=False` is returned instead of an error. -/
def debateTurnMedgemmaOnly (req : DebateTurnRequest) (fb : FallbackOracles) :
    DTResponse :=
  match medgemmaOnlyAttempt req fb with
  | .ok r => r
  | .error e =>
    { ai_response := .str (apologeticResponse e),
      updated_differential := req.current_differential,
      suggested_test := .null,
      orchestrated := false }

/-- The fresh `ClinicalState` created for a new session. -/
def freshFor (req : DebateTurnRequest) : ClinicalState :=
  { patient_history := req.patient_history,
    lab_values := req.lab_values,
    differential := .arr [],
    image_context := req.image_context.getD [] }

/-- The `try` body of `_debate_turn_orchestrated`: the orchestrator turn
plus differential parsing and response construction. -/
def orchestratedAttempt (req : DebateTurnRequest) (sid : List Char)
    (clientSome : Bool) (o : TurnOracles) (st1 : ClinicalState) :
    Except (List Char) DTResponse :=
  match processDebateTurn clientSome o req.user_challenge st1 req.previous_rounds [] with
  | .error e => .error e
  | .ok (result, _st2) =>
    match parseDifferential (dgetD result "updated_differential".toList (.arr [])) with
    | .error e => .error e
    | .ok diagnoses =>
      .ok { ai_response := dgetD result aiKey (JVal.s "I need more information to respond."),
            updated_differential :=
              if diagnoses.isEmpty then req.current_differential else diagnoses,
            suggested_test := dgetN result "suggested_test",
            session_id := some sid,
            orchestrated := true,
            citations := dgetD result "citations".toList (.arr []),
            has_guidelines := dgetD result "has_guidelines".toList (.bool false) }

/-- `_debate_turn_orchestrated`: create-or-fetch the session, sync the
differential, run the orchestrator turn; any exception from it (or from
differential parsing) falls back to the MedGemma-only path.  Returns the
session table after the create/evict step together with the response
(later in-place state mutation never changes the table's key set). -/
def debateTurnOrchestrated (sessions : List (List Char × ClinicalState))
    (req : DebateTurnRequest) (generatedSid : List Char) (clientSome : Bool)
    (o : TurnOracles) (fb : FallbackOracles) (maxSessions : Nat) :
    Except (List Char) (List (List Char × ClinicalState) × DTResponse) :=
  let sid := req.session_id.getD generatedSid
  let fresh := freshFor req
  match getOrCreateSession sessions sid fresh maxSessions with
  | .error e => .error e
  | .ok sessions1 =>
    let st1 := ((sessions1.find? (fun p => p.1 == sid)).map (fun p => p.2)).getD fresh
    match orchestratedAttempt req sid clientSome o st1 with
    | .ok resp => .ok (sessions1, resp)
    | .error _ => .ok (sessions1, debateTurnMedgemmaOnly req fb)


/-- A minimal well-formed debate-turn request used in the fallback examples. -/
def c8Req : DebateTurnRequest :=
  { patient_history := [], lab_values := [], current_differential := [],
    previous_rounds := [], user_challenge := "u".toList }

/-- Fallback oracles in which even the model lookup raises. -/
def c8FailFb : FallbackOracles :=
  { getModel := .error "boom".toList, generate1 := .error "x".toList,
    generate2 := .error "x".toList }

/-! ## Specification-side scanners and concrete test data

`openStringAfter` / `openStack` restate the two walks of
`_repair_truncated_json` as single left folds over an explicit
(in-string, skip-escaped) state; the equivalence with the transliterated
walks is proved below. -/

/-- One step of the open-string scanner: state is (inside-string,
skip-this-character). -/
def scanStrStep (st : Bool × Bool) (c : Char) : Bool × Bool :=
  if st.2 then (st.1, false)
  else if c = '\\' ∧ st.1 then (st.1, true)
  else if c = '"' then (!st.1, false)
  else (st.1, false)

/-- Whether the text ends inside an unterminated string. -/
def openStringAfter (t : List Char) : Bool :=
  (t.foldl scanStrStep (false, false)).1

/-- One step of the open-bracket scanner: state is ((inside-string, skip),
stack of unclosed openers, most recent first). -/
def scanBrStep (st : (Bool × Bool) × List Char) (c : Char) :
    (Bool × Bool) × List Char :=
  let inStr := st.1.1
  let skip := st.1.2
  let stack := st.2
  if skip then ((inStr, false), stack)
  else if c = '\\' ∧ inStr then ((inStr, true), stack)
  else if c = '"' then ((!inStr, false), stack)
  else if inStr then ((inStr, false), stack)
  else if c = lbrace ∨ c = '[' then ((inStr, false), c :: stack)
  else if c = rbrace then
    ((inStr, false), match stack with
      | t :: r => if t = lbrace then r else stack
      | [] => stack)
  else if c = ']' then
    ((inStr, false), match stack with
      | t :: r => if t = '[' then r else stack
      | [] => stack)
  else ((inStr, false), stack)

/-- The unclosed `{` / `[` openers of the text, most recently opened
first (i.e. in reverse order of opening). -/
def openStack (t : List Char) : List Char :=
  (t.foldl scanBrStep ((false, false), [])).2

/-- Side condition on the episode-summary oracle: a successful LLM call
does not return pure whitespace (a failed call always yields the non-empty
deterministic fallback). -/
def epNonBlank (llm : Except (List Char) (List Char)) : Prop :=
  match llm with
  | .ok t => stripL t ≠ []
  | .error _ => True

/-- Lab values provided in the hallucination examples:
`{"Hemoglobin": {"value": 8.2, "unit": "g/dL"}}`. -/
def hemoglobinProvided : List (List Char × JVal) :=
  [("Hemoglobin".toList,
    .obj [("value".toList, .num (mkRat 82 10)), ("unit".toList, JVal.s "g/dL")])]

/-- Generated text of the hallucination example. -/
def c4Text : List Char :=
  "Low hemoglobin at 8.2 g/dL and ferritin at 12 ng/mL".toList

/-- The flagged ferritin mention of the hallucination example. -/
def ferritinEntry : HallEntry :=
  { test := "ferritin".toList, value := mkRat 12 1, unit := "ng/mL".toList,
    context := c4Text }

/-- Text carrying both citation spellings of the NCCN example. -/
def nccnText : List Char :=
  "Per (NCCN Guidelines, 2024) and later (NCCN 2024) again.".toList

/-- A well-formed caller-supplied debate round. -/
def sampleRound : Round :=
  [("user_challenge".toList, JVal.s "c"), ("ai_response".toList, JVal.s "r")]

/-- Oracles of the episode-summary examples: all external calls succeed. -/
def episodeOracles : TurnOracles :=
  { queryText := "q".toList, specialist := some "a".toList,
    synthesisText := ('\x7b' :: "\"ai_response\": \"ok\"".toList ++ ['\x7d']),
    episodeLLM := .ok "summary text".toList }

/-- Session state entering its 4th round. -/
def stateRound4 : ClinicalState := { debate_round := 3, last_episode_round := 0 }

/-- Session state entering its 5th round. -/
def stateRound5 : ClinicalState := { debate_round := 4, last_episode_round := 0 }

/-- Oracles of the timeout example: the specialist call times out and the
synthesis model replies with a response that does not mention the
question. -/
def timeoutOracles : TurnOracles :=
  { queryText := "Why is the ferritin low?".toList, specialist := none,
    synthesisText := ('\x7b' :: "\"ai_response\": \"ok\"".toList ++ ['\x7d']),
    episodeLLM := .ok "s".toList }



/-- The JSON-ish dict returned by the round-5 episode example turn. -/
def c6ResultDict : List (List Char × JVal) :=
  [(aiKey, .str "ok".toList), ("citations".toList, .arr []),
   ("has_guidelines".toList, .bool false)]

/-- The clinical state after the round-5 episode example turn. -/
def c6StateAfter : ClinicalState :=
  { debate_round := 5, last_episode_round := 5,
    episode_summaries := ["summary text".toList] }

/-- Unique-keys predicate for a Python-`dict` association list (the
invariant maintained by `dset`-built objects). -/
def NodupKeys (d : List (List Char × JVal)) : Prop :=
  (d.map Prod.fst).Nodup

/-- The double-wrapped example input:
`{"ai_response": "{\"ai_response\": \"real text\", \"suggested_test\": null}"}`. -/
def doubleWrappedInput : List Char :=
  "\x7b\"ai_response\": \"\x7b\\\"ai_response\\\": \\\"real text\\\", \\\"suggested_test\\\": null\x7d\"\x7d".toList

/-- The inner JSON string of the double-wrapped example. -/
def doubleWrappedInner : List Char :=
  "\x7b\"ai_response\": \"real text\", \"suggested_test\": null\x7d".toList

/-! ## Helper lemmas -/

theorem getOrCreateSession_isOk (sessions : List (List Char × ClinicalState))
    (sid : List Char) (fresh : ClinicalState) (maxS : Nat) (hmax : 1 ≤ maxS) :
    ∃ s1, getOrCreateSession sessions sid fresh maxS = .ok s1 := by
  unfold getOrCreateSession
  split
  · exact ⟨sessions, rfl⟩
  · split
    · rename_i hge
      match sessions, hge with
      | [], hge => exfalso; simp only [List.length_nil] at hge; omega
      | p :: rest, _ => exact ⟨rest ++ [(sid, fresh)], rfl⟩
    · exact ⟨sessions ++ [(sid, fresh)], rfl⟩

/-! ## Theorems for the claims -/

/-- **C9** — The session store is bounded with insertion-order (FIFO,
least-recently-created) eviction: an existing session id leaves the table
unchanged; a new id at capacity evicts exactly the earliest-created
session (the head of the insertion order) before inserting; and the table
size never exceeds the capacity bound after the create-or-fetch step of a
turn (for any positive capacity). -/
theorem c9_session_store_fifo_bound :
    (∀ (sessions : List (List Char × ClinicalState)) (sid : List Char)
       (fresh : ClinicalState) (maxS : Nat),
       sessions.any (fun q => q.1 == sid) = true →
       getOrCreateSession sessions sid fresh maxS = .ok sessions)
  ∧ (∀ (sessions : List (List Char × ClinicalState)) (sid : List Char)
       (fresh : ClinicalState) (maxS : Nat) (p : List Char × ClinicalState)
       (rest : List (List Char × ClinicalState)),
       sessions.any (fun q => q.1 == sid) = false →
       maxS ≤ sessions.length →
       sessions = p :: rest →
       getOrCreateSession sessions sid fresh maxS = .ok (rest ++ [(sid, fresh)]))
  ∧ (∀ (sessions : List (List Char × ClinicalState)) (sid : List Char)
       (fresh : ClinicalState) (maxS : Nat)
       (s1 : List (List Char × ClinicalState)),
       1 ≤ maxS → sessions.length ≤ maxS →
       getOrCreateSession sessions sid fresh maxS = .ok s1 →
       s1.length ≤ maxS) := by
  refine ⟨?_, ?_, ?_⟩
  · intro sessions sid fresh maxS hmem
    unfold getOrCreateSession
    simp [hmem]
  · intro sessions sid fresh maxS p rest hmem hcap hshape
    subst hshape
    unfold getOrCreateSession
    simp only [hmem, Bool.false_eq_true, if_false, ge_iff_le]
    rw [if_pos hcap]
  · intro sessions sid fresh maxS s1 hmax hlen h
    unfold getOrCreateSession at h
    split at h
    · cases h; exact hlen
    · split at h
      · rename_i hge
        match sessions, hlen, hge, h with
        | [], _, hge, h => exfalso; simp only [List.length_nil] at hge; omega
        | p :: rest, hlen, hge, h =>
          cases h
          simp only [List.length_append, List.length_cons, List.length_nil] at *
          omega
      · cases h
        rename_i hlt
        simp only [List.length_append, List.length_cons, List.length_nil] at *
        omega

/-- **C9 witness** — a table of one session at capacity 1: creating a new
session evicts the earlier one and the table stays at one entry. -/
theorem c9_witness :
    getOrCreateSession [("a".toList, stateRound4)] "b".toList stateRound5 1 =
      .ok ([] ++ [("b".toList, stateRound5)]) :=
  c9_session_store_fifo_bound.2.1 [("a".toList, stateRound4)] "b".toList stateRound5 1
    ("a".toList, stateRound4) [] (by decide) (by decide) rfl

/-- **C5** — Citation extraction is deterministic and idempotent (the text
comes back unchanged, so a second run yields the same deduplicated list in
the same order); and on a text containing both `(NCCN Guidelines, 2024)`
and `(NCCN 2024)`, both spans resolve to source `NCCN` and dedup by
(source, year) leaves exactly one NCCN citation. -/
theorem c5_citation_idempotent_dedup :
    (∀ t : List Char,
       (extractCitations t).1 = t ∧
       extractCitations (extractCitations t).1 = extractCitations t)
  ∧ ((collectCitationMatches nccnText).map (fun m => (buildCitation nccnText m).source)
      = ["NCCN".toList, "NCCN".toList])
  ∧ (extractCitations nccnText).2 =
      [{ text := "(NCCN Guidelines, 2024)".toList,
         url := "https://www.nccn.org/guidelines/".toList,
         source := "NCCN".toList }] := by
  refine ⟨fun t => ⟨rfl, rfl⟩, by decide, by decide⟩

/-- **C5 witness** — the idempotence part applied at the NCCN example
text. -/
theorem c5_witness :
    (extractCitations nccnText).1 = nccnText ∧
    extractCitations (extractCitations nccnText).1 = extractCitations nccnText :=
  c5_citation_idempotent_dedup.1 nccnText


/-- Fold soundness for the hallucination loop: every flagged entry comes
from a list element that failed the tolerance test and whose nearest lab
mention is outside the provided names. -/
theorem hallFold_sound (text : List Char) (allowed : List (ℚ × List Char))
    (norm : List (List Char)) (full : List NumEntry) (Q : HallEntry → Prop)
    (hQ : ∀ e closestLab, e ∈ full →
        isAllowedValue allowed e = false →
        findClosestLab text e.position = some closestLab →
        norm.contains closestLab = false →
        Q { test := closestLab, value := e.value, unit := e.unit, context := e.context }) :
    ∀ (l : List NumEntry) (acc : HallucinationResult),
      (∀ y ∈ l, y ∈ full) →
      (∀ x ∈ acc.hallucinated_values, Q x) →
      ∀ x ∈ (l.foldl (hallStep text allowed norm) acc).hallucinated_values, Q x := by
  intro l
  induction l with
  | nil => intro acc _ hacc; exact hacc
  | cons e rest ih =>
    intro acc hsub hacc
    simp only [List.foldl_cons]
    apply ih
    · intro y hy; exact hsub y (List.mem_cons_of_mem _ hy)
    · unfold hallStep
      split
      · exact hacc
      · rename_i hallow
        split
        · rename_i closestLab hclosest
          split
          · exact hacc
          · rename_i hnorm
            intro x hx
            simp only [List.mem_append, List.mem_singleton] at hx
            rcases hx with hx | hx
            · exact hacc x hx
            · subst hx
              exact hQ e closestLab (hsub e (List.mem_cons_self e rest))
                (Bool.eq_false_iff.mpr hallow)
                hclosest (Bool.eq_false_iff.mpr hnorm)
        · exact hacc

/-- Every flagged entry of `check_hallucination` arises from an extracted
numeric mention that failed the tolerance test against the allowed pairs
and whose nearest lab-name mention is not among the provided lab names. -/
theorem checkHallucination_sound (text : List Char)
    (provided : List (List Char × JVal)) (history : Option (List Char)) :
    ∀ x ∈ (checkHallucination text (some provided) history).hallucinated_values,
      ∃ e, e ∈ extractNumericValues text ∧
        isAllowedValue (allowedValues provided history) e = false ∧
        findClosestLab text e.position = some x.test ∧
        (provided.map (fun p => normalizeLabName p.1)).contains x.test = false ∧
        x.value = e.value ∧ x.unit = e.unit := by
  have key := hallFold_sound text (allowedValues provided history)
    (provided.map (fun p => normalizeLabName p.1)) (extractNumericValues text)
    (fun x => ∃ e, e ∈ extractNumericValues text ∧
        isAllowedValue (allowedValues provided history) e = false ∧
        findClosestLab text e.position = some x.test ∧
        (provided.map (fun p => normalizeLabName p.1)).contains x.test = false ∧
        x.value = e.value ∧ x.unit = e.unit)
    (fun e closestLab hmem hallow hclosest hnorm =>
      ⟨e, hmem, hallow, hclosest, hnorm, rfl, rfl⟩)
    (extractNumericValues text)
    { has_hallucination := false, hallucinated_values := [], warnings := [] }
    (fun y hy => hy) (by simp)
  intro x hx
  simp only [checkHallucination, Option.getD_some] at hx
  exact key x hx

/-- **C4** — On the hemoglobin/ferritin example exactly the ferritin
mention (`12 ng/mL`) is flagged and the hemoglobin mention (`8.2 g/dL`,
matching the provided value) is not; and in general an extracted number
that is within absolute tolerance `1e-3` of an allowed (value, unit) pair
is never the origin of a flagged entry — every flagged entry arises from a
mention that failed the tolerance test. -/
theorem c4_hallucination_check :
    (checkHallucination c4Text (some hemoglobinProvided) none =
      { has_hallucination := true,
        hallucinated_values := [ferritinEntry],
        warnings :=
          ["Potential hallucination: '12 ng/mL' for ferritin not in provided data".toList] })
  ∧ (∀ (text : List Char) (provided : List (List Char × JVal))
       (history : Option (List Char)) (x : HallEntry),
       x ∈ (checkHallucination text (some provided) history).hallucinated_values →
       ∃ e, e ∈ extractNumericValues text ∧
         isAllowedValue (allowedValues provided history) e = false ∧
         x.value = e.value ∧ x.unit = e.unit) := by
  refine ⟨by decide, ?_⟩
  intro text provided history x hx
  obtain ⟨e, hmem, hallow, _, _, hval, hunit⟩ :=
    checkHallucination_sound text provided history x hx
  exact ⟨e, hmem, hallow, hval, hunit⟩

/-- **C4 witness** — the general part applied to the flagged ferritin
entry of the example. -/
theorem c4_witness :
    ∃ e, e ∈ extractNumericValues c4Text ∧
      isAllowedValue (allowedValues hemoglobinProvided none) e = false ∧
      ferritinEntry.value = e.value ∧ ferritinEntry.unit = e.unit :=
  c4_hallucination_check.2 c4Text hemoglobinProvided none ferritinEntry (by decide)

/-- **C10** — The hallucination check never flags a numeric value whose
nearest lab-test mention normalizes to a provided lab name: every flagged
entry's test is outside the provided names; in particular an invented
number attributed to a provided test (`hemoglobin at 99 g/dL` with only
`Hemoglobin: 8.2 g/dL` provided) produces no flag and no warnings. -/
theorem c10_nearest_lab_provided_never_flagged :
    (∀ (text : List Char) (provided : List (List Char × JVal))
       (history : Option (List Char)) (x : HallEntry),
       x ∈ (checkHallucination text (some provided) history).hallucinated_values →
       (provided.map (fun p => normalizeLabName p.1)).contains x.test = false)
  ∧ (checkHallucination "hemoglobin at 99 g/dL".toList (some hemoglobinProvided) none =
      { has_hallucination := false, hallucinated_values := [], warnings := [] }) := by
  refine ⟨?_, by decide⟩
  intro text provided history x hx
  obtain ⟨_, _, _, _, hnorm, _, _⟩ := checkHallucination_sound text provided history x hx
  exact hnorm

/-- **C10 witness** — the general part applied to the ferritin example
(the only flagged test, `ferritin`, is not among the provided names). -/
theorem c10_witness :
    (hemoglobinProvided.map (fun p => normalizeLabName p.1)).contains
      ferritinEntry.test = false :=
  c10_nearest_lab_provided_never_flagged.1 c4Text hemoglobinProvided none ferritinEntry
    (by decide)


/-- **C1 counterexample** — `extract_json` *does* raise on a non-empty
input containing `{`: on `"{a}"` every repair attempt fails and the
function raises `HTTPException` ("Failed to parse model response as
JSON"), refuting the never-raises contract for `extract_json`. -/
theorem c1_counterexample :
    "\x7ba\x7d".toList ≠ [] ∧
    "\x7ba\x7d".toList.contains lbrace = true ∧
    extractJson "\x7ba\x7d".toList =
      .error "Failed to parse model response as JSON".toList :=
  ⟨by decide, by decide, by rfl⟩

/-- **C1 amended** — the never-raises/minimal-record contract holds for
`_parse_orchestrator_response` (not for `extract_json`): on any non-empty
input with no `{` whose direct and comma-fixed parses fail and whose text
matches neither the `ai_response` extraction regex nor the cleanup prefix
pattern, it returns the minimal record carrying the first 500 characters
of the raw text in `ai_response`; `extract_json`, by contrast, raises on
input with no `{` at all. -/
theorem c1_amended :
    (∀ s : List Char,
       fenceStage s = s →
       findCharIdx lbrace s = none →
       jsonLoads s = none →
       jsonLoads (commaFixSub s) = none →
       reSearch aiRespRE s = none →
       s ≠ [] →
       (stripL (s.take 500)).head? ≠ some lbrace →
       reMatchStart aiFinalRE (s.take 500) = none →
       parseOrchestratorResponse s =
         .ok [(aiKey, .str (s.take 500)),
              ("updated_differential".toList, .arr []),
              ("suggested_test".toList, .null)])
  ∧ extractJson "hello".toList = .error "Model response contained no JSON".toList := by
  constructor
  · intro s hfence hfind hj1 hj2 hsearch hne hhead hfinal
    have hfirst : parseOrchFirst s =
        .obj [(aiKey, .str (s.take 500)),
              ("updated_differential".toList, .arr []),
              ("suggested_test".toList, .null)] := by
      unfold parseOrchFirst
      rw [hfence]
      cases hr : rfindCharIdx rbrace s <;>
        simp only [hfind, hj1, hj2, hsearch, List.isEmpty_eq_true] <;>
        simp [hne]
    unfold parseOrchestratorResponse
    rw [hfirst]
    unfold unwrapStage dictFixStage finalCleanupStage
    simp only [dgetD, dget, List.find?, beq_self_eq_true, Option.getD_some]
    rw [if_neg hhead]
    simp only [dget, List.find?, beq_self_eq_true, Option.getD_some, hfinal]
  · rfl

/-- **C1 witness** — the amended contract evaluated at the concrete
brace-free input `"hello"`. -/
theorem c1_witness :
    parseOrchestratorResponse "hello".toList =
      .ok [(aiKey, .str ("hello".toList.take 500)),
           ("updated_differential".toList, .arr []),
           ("suggested_test".toList, .null)] :=
  c1_amended.1 "hello".toList (by rfl) (by rfl) (by rfl) (by rfl) (by rfl)
    (by decide) (by decide) (by rfl)


/-- The transliterated quote-parity walk of `_repair_truncated_json`
equals the single left fold over an explicit (in-string, skip) state. -/
theorem quoteParity_eq_foldl : ∀ (t : List Char) (b : Bool),
    quoteParity t b = (t.foldl scanStrStep (b, false)).1 := by
  intro t b
  induction t, b using quoteParity.induct <;>
    simp_all [quoteParity, scanStrStep]
  rename_i c rest b himp hne ih
  by_cases hc : c = '\\'
  · have hb : b = false := himp hc
    subst hb
    simp [hc]
  · simp [hc]

/-- The transliterated bracket-stack walk of `_repair_truncated_json`
equals the single left fold over ((in-string, skip), stack). -/
theorem bracketWalk_eq_foldl : ∀ (t : List Char) (b : Bool) (st : List Char),
    bracketWalk t b st = (t.foldl scanBrStep ((b, false), st)).2 := by
  intro t b st
  induction t, b, st using bracketWalk.induct
  all_goals try simp_all [scanBrStep]
  all_goals (rw [bracketWalk.eq_def]; try simp_all [scanBrStep])

/-- **C2 counterexample** — the truncated input `{"a": 1, "b` is a prefix
of the well-formed object `{"a": 1, "b": 2}` cut inside the object, and
its intact prefix holds the complete field `"a": 1`; yet `extract_json`
raises (the repair closes it to `{"a": 1, "b"}`, which still fails to
parse), so the record-with-all-complete-fields contract fails. -/
theorem c2_counterexample :
    jsonLoads ("\x7b\"a\": 1, \"b\": 2\x7d".toList) =
      some (.obj [("a".toList, .num (mkRat 1 1)), ("b".toList, .num (mkRat 2 1))]) ∧
    "\x7b\"a\": 1, \"b".toList.isPrefixOf "\x7b\"a\": 1, \"b\": 2\x7d".toList = true ∧
    extractJson "\x7b\"a\": 1, \"b".toList =
      .error "Failed to parse model response as JSON".toList :=
  ⟨by rfl, by decide, by rfl⟩

/-- **C2 amended** — the truncation repair does walk the text with an
open-bracket stack and an open-string flag, closing an unterminated
string and then the unclosed brackets in reverse order of opening (the
universal characterization via the fold scanners), and on a truncation
cut inside a string *value* — `{"a": "x", "b": "yy` — `extract_json`
returns a record containing every complete field of the intact prefix;
but this preservation is not universal (see the counterexample). -/
theorem c2_amended :
    (∀ t : List Char,
       repairTruncatedJson t =
         (let t1 := rstripL t
          let base := if t1.getLast? = some ',' then t1.dropLast else t1
          let closedStr := if openStringAfter base then base ++ ['"'] else base
          closedStr ++ closersFor (openStack closedStr)))
  ∧ extractJson "\x7b\"a\": \"x\", \"b\": \"yy".toList =
      .ok (.obj [("a".toList, .str "x".toList), ("b".toList, .str "yy".toList)]) := by
  constructor
  · intro t
    unfold repairTruncatedJson
    simp only [openStringAfter, openStack, ← quoteParity_eq_foldl, ← bracketWalk_eq_foldl]
  · rfl

/-- **C2 witness** — the repair characterization evaluated on the
mid-string truncated input. -/
theorem c2_witness :
    repairTruncatedJson "\x7b\"a\": \"x\", \"b\": \"yy".toList =
      (let t1 := rstripL "\x7b\"a\": \"x\", \"b\": \"yy".toList
       let base := if t1.getLast? = some ',' then t1.dropLast else t1
       let closedStr := if openStringAfter base then base ++ ['"'] else base
       closedStr ++ closersFor (openStack closedStr)) :=
  c2_amended.1 "\x7b\"a\": \"x\", \"b\": \"yy".toList

theorem dget_nil (k : List Char) : dget [] k = none := rfl

theorem dget_cons (k0 : List Char) (v0 : JVal) (rest : List (List Char × JVal))
    (k : List Char) :
    dget ((k0, v0) :: rest) k = if k0 == k then some v0 else dget rest k := by
  by_cases h : k0 == k <;> simp [dget, List.find?, h]

theorem dget_map_set (d : List (List Char × JVal)) (k k1 : List Char) (v1 : JVal)
    (hne : (k1 == k) = false) :
    dget (d.map (fun p => if p.1 == k1 then (k1, v1) else p)) k = dget d k := by
  induction d with
  | nil => rfl
  | cons p rest ih =>
    obtain ⟨k0, v0⟩ := p
    by_cases h1 : k0 == k1
    · have hk : k0 = k1 := by simpa using h1
      subst hk
      simp only [List.map_cons, h1, if_true]
      rw [dget_cons, dget_cons, ih]
      simp [hne, show (k0 == k) = false from by simpa using hne]
    · simp only [List.map_cons, h1, Bool.false_eq_true, if_false]
      rw [dget_cons, dget_cons, ih]

theorem dget_append_single (d : List (List Char × JVal)) (k k1 : List Char)
    (v1 : JVal) (hne : (k1 == k) = false) :
    dget (d ++ [(k1, v1)]) k = dget d k := by
  induction d with
  | nil => simp [dget, List.find?, hne]
  | cons p rest ih =>
    obtain ⟨k0, v0⟩ := p
    rw [List.cons_append, dget_cons, dget_cons, ih]

theorem dget_dset_self (d : List (List Char × JVal)) (k : List Char) (v : JVal) :
    dget (dset d k v) k = some v := by
  induction d with
  | nil => simp [dset, dget, List.find?]
  | cons p rest ih =>
    obtain ⟨k0, v0⟩ := p
    by_cases h : k0 == k
    · have hany : ((k0, v0) :: rest).any (fun p => p.1 == k) = true := by
        simp [List.any_cons, h]
      simp only [dset, hany, if_true, List.map_cons, h]
      rw [dget_cons]
      simp
    · simp only [dset, List.any_cons, h, Bool.false_or]
      by_cases ha : rest.any (fun p => p.1 == k)
      · simp only [ha, if_true, List.map_cons, h, Bool.false_eq_true, if_false]
        rw [dget_cons]
        have hih := ih
        simp only [dset, ha, if_true] at hih
        simp only [h, Bool.false_eq_true, if_false]
        exact hih
      · simp only [ha, Bool.false_eq_true, if_false, List.cons_append]
        rw [dget_cons]
        have hih := ih
        simp only [dset, ha, Bool.false_eq_true, if_false] at hih
        simp only [h, Bool.false_eq_true, if_false]
        exact hih

theorem dget_dset_of_ne (d : List (List Char × JVal)) (k k1 : List Char)
    (v1 : JVal) (hne : (k1 == k) = false) :
    dget (dset d k1 v1) k = dget d k := by
  unfold dset
  split
  · exact dget_map_set d k k1 v1 hne
  · exact dget_append_single d k k1 v1 hne

theorem dget_dupdate_no_key (rest : List (List Char × JVal)) :
    ∀ (d : List (List Char × JVal)) (k : List Char),
    (∀ p ∈ rest, (p.1 == k) = false) →
    dget (dupdate d rest) k = dget d k := by
  induction rest with
  | nil => intro d k _; rfl
  | cons p r ih =>
    intro d k hall
    obtain ⟨k1, v1⟩ := p
    have h1 : (k1 == k) = false := hall (k1, v1) (List.mem_cons_self _ _)
    have : dupdate d ((k1, v1) :: r) = dupdate (dset d k1 v1) r := rfl
    rw [this, ih (dset d k1 v1) k (fun p hp => hall p (List.mem_cons_of_mem _ hp)),
        dget_dset_of_ne d k k1 v1 h1]

theorem dget_dupdate_of_mem (inner : List (List Char × JVal)) :
    ∀ (d : List (List Char × JVal)) (k : List Char) (v : JVal),
    NodupKeys inner → dget inner k = some v →
    dget (dupdate d inner) k = some v := by
  induction inner with
  | nil => intro d k v _ h; simp [dget, List.find?] at h
  | cons p rest ih =>
    intro d k v hnodup hget
    obtain ⟨k0, v0⟩ := p
    have hstep : dupdate d ((k0, v0) :: rest) = dupdate (dset d k0 v0) rest := rfl
    rw [dget_cons] at hget
    by_cases h : k0 == k
    · have hk : k0 = k := by simpa using h
      simp only [h, if_true, Option.some.injEq] at hget
      subst hget hk
      have hrest : ∀ p ∈ rest, (p.1 == k0) = false := by
        intro p hp
        have : k0 ∉ rest.map Prod.fst := by
          have := hnodup
          simp only [NodupKeys, List.map_cons, List.nodup_cons] at this
          exact this.1
        have hpk : p.1 ≠ k0 := fun hEq => this (hEq ▸ List.mem_map_of_mem Prod.fst hp)
        simpa using hpk
      rw [hstep, dget_dupdate_no_key rest (dset d k0 v0) k0 hrest,
          dget_dset_self]
    · simp only [h, Bool.false_eq_true, if_false] at hget
      have hnr : NodupKeys rest := by
        have := hnodup
        simp only [NodupKeys, List.map_cons, List.nodup_cons] at this
        exact this.2
      rw [hstep]
      exact ih (dset d k0 v0) k v hnr hget

theorem dset_nodupKeys (d : List (List Char × JVal)) (k : List Char) (v : JVal)
    (h : NodupKeys d) : NodupKeys (dset d k v) := by
  unfold dset
  split
  · have : (d.map (fun p => if p.1 == k then (k, v) else p)).map Prod.fst
        = d.map Prod.fst := by
      rw [List.map_map]
      apply List.map_congr_left
      intro p _
      by_cases hp : p.1 == k
      · have : p.1 = k := by simpa using hp
        simp [Function.comp, hp, this]
      · simp [Function.comp, hp]
    unfold NodupKeys
    rw [this]
    exact h
  · rename_i hany
    unfold NodupKeys
    rw [List.map_append]
    simp only [List.map_cons, List.map_nil]
    rw [List.nodup_append]
    refine ⟨h, List.nodup_singleton _, ?_⟩
    intro a ha hb
    simp only [List.mem_singleton] at hb
    simp only [List.mem_map] at ha
    obtain ⟨p, hp, hpk⟩ := ha
    have hak : (p.1 == k) = true := by rw [hpk, hb]; simp
    exact absurd (List.any_eq_true.mpr ⟨p, hp, hak⟩) hany

theorem parseJObj_nodup : ∀ (fuel : Nat) (s : List Char)
    (acc fields : List (List Char × JVal)) (rem : List Char),
    NodupKeys acc → parseJObj fuel s acc = some (.obj fields, rem) →
    NodupKeys fields := by
  intro fuel
  induction fuel with
  | zero => intro s acc fields rem _ h; simp [parseJObj] at h
  | succ fuel ih =>
    intro s acc fields rem hacc h
    unfold parseJObj at h
    split at h
    · split at h
      · simp only [Option.some.injEq, Prod.mk.injEq, JVal.obj.injEq] at h
        rw [← h.1]
        exact List.nodup_nil
      · split at h
        · split at h
          · simp at h
          · split at h
            · split at h
              · simp at h
              · split at h
                · split at h
                  · exact ih _ _ _ _ (dset_nodupKeys _ _ _ hacc) h
                  · simp at h
                · split at h
                  · simp only [Option.some.injEq, Prod.mk.injEq, JVal.obj.injEq] at h
                    rw [← h.1]
                    exact dset_nodupKeys _ _ _ hacc
                  · simp at h
                · simp at h
            · simp at h
        · simp at h
    · simp at h

theorem parseJArrRest_arr : ∀ (fuel : Nat) (s : List Char) (acc : List JVal)
    (v : JVal) (rem : List Char),
    parseJArrRest fuel s acc = some (v, rem) → ∃ xs, v = .arr xs := by
  intro fuel
  induction fuel with
  | zero => intro s acc v rem h; simp [parseJArrRest] at h
  | succ fuel ih =>
    intro s acc v rem h
    unfold parseJArrRest at h
    split at h
    · simp only [Option.some.injEq, Prod.mk.injEq] at h
      exact ⟨_, h.1.symm⟩
    · split at h
      · simp at h
      · exact ih _ _ _ _ h
    · simp at h

theorem parseJArrFirst_arr (fuel : Nat) (s : List Char) (v : JVal)
    (rem : List Char) (h : parseJArrFirst fuel s = some (v, rem)) :
    ∃ xs, v = .arr xs := by
  match fuel with
  | 0 => simp [parseJArrFirst] at h
  | fuel + 1 =>
    unfold parseJArrFirst at h
    split at h
    · simp only [Option.some.injEq, Prod.mk.injEq] at h
      exact ⟨_, h.1.symm⟩
    · split at h
      · simp at h
      · exact parseJArrRest_arr _ _ _ _ _ h

theorem parseJVal_obj (fuel : Nat) (s : List Char)
    (fields : List (List Char × JVal)) (rem : List Char)
    (h : parseJVal fuel s = some (.obj fields, rem)) :
    ∃ fuel2 s2, parseJObj fuel2 s2 [] = some (.obj fields, rem) := by
  match fuel with
  | 0 => simp [parseJVal] at h
  | fuel + 1 =>
    unfold parseJVal at h
    repeat' split at h
    all_goals try simp at h
    all_goals try exact ⟨fuel, _, h⟩
    all_goals (obtain ⟨xs, hxs⟩ := parseJArrFirst_arr _ _ _ _ h; simp at hxs)

theorem jsonLoads_obj_nodup (s : List Char) (fields : List (List Char × JVal))
    (h : jsonLoads s = some (.obj fields)) : NodupKeys fields := by
  unfold jsonLoads at h
  cases heq : parseJVal (s.length + 1) (skipJWs s) with
  | none => rw [heq] at h; simp at h
  | some p =>
    obtain ⟨v, rem⟩ := p
    rw [heq] at h
    by_cases hrem : skipJWs rem = []
    · simp only [hrem, if_true] at h
      simp only [Option.some.injEq] at h
      subst h
      obtain ⟨fuel2, s2, h2⟩ := parseJVal_obj _ _ _ _ heq
      exact parseJObj_nodup fuel2 s2 [] fields rem List.nodup_nil h2
    · simp [hrem] at h

/-- **C3** — Double-wrapping: whenever the parsed outer object's
`ai_response` is itself a string that (after stripping) starts with `{`
and parses as an object containing an `ai_response` key, the parser merges
the inner object over the outer one and the inner values win (every
inner key/value pair survives to the final record); in particular the
concrete double-wrapped input resolves to `ai_response == "real text"`. -/
theorem c3_double_wrap_inner_wins :
    (∀ (text s t2 : List Char) (outer inner : List (List Char × JVal)),
       parseOrchFirst text = .obj outer →
       dgetD outer aiKey (.str []) = .str s →
       (stripL s).head? = some lbrace →
       jsonLoads s = some (.obj inner) →
       dmem inner aiKey = true →
       dget inner aiKey = some (.str t2) →
       reMatchStart aiFinalRE t2 = none →
       ∃ d, parseOrchestratorResponse text = .ok d ∧
            ∀ k v, dget inner k = some v → dget d k = some v)
  ∧ parseOrchestratorResponse doubleWrappedInput =
      .ok [(aiKey, JVal.s "real text"), ("suggested_test".toList, .null)] := by
  constructor
  · intro text s t2 outer inner hfirst hai hhead hinner hmem ht2 hfinal
    have hnodup : NodupKeys inner := jsonLoads_obj_nodup s inner hinner
    have hupd : ∀ k v, dget inner k = some v → dget (dupdate outer inner) k = some v :=
      fun k v hkv => dget_dupdate_of_mem inner outer k v hnodup hkv
    have hd1ai : dget (dupdate outer inner) aiKey = some (.str t2) :=
      hupd aiKey (.str t2) ht2
    have hu : unwrapStage outer = dupdate outer inner := by
      unfold unwrapStage
      rw [hai]
      simp only [hhead, if_pos, hinner, hmem, if_true]
    have hfx : dictFixStage (dupdate outer inner) = dupdate outer inner := by
      unfold dictFixStage
      rw [hd1ai]
    have hfc : finalCleanupStage (dupdate outer inner) = dupdate outer inner := by
      unfold finalCleanupStage
      have hgd : dgetD (dupdate outer inner) aiKey (.str []) = .str t2 := by
        unfold dgetD
        rw [hd1ai]
        rfl
      rw [hgd]
      simp only [hfinal]
    refine ⟨dupdate outer inner, ?_, hupd⟩
    unfold parseOrchestratorResponse
    rw [hfirst]
    simp only [hu, hfx, hfc]
  · rfl

/-- **C3 witness** — the double-wrap contract applied at the concrete
example input, whose inner object's values win. -/
theorem c3_witness :
    ∃ d, parseOrchestratorResponse doubleWrappedInput = .ok d ∧
      ∀ k v, dget [(aiKey, JVal.s "real text"), ("suggested_test".toList, JVal.null)] k = some v →
        dget d k = some v :=
  c3_double_wrap_inner_wins.1 doubleWrappedInput doubleWrappedInner "real text".toList
    [(aiKey, .str doubleWrappedInner)]
    [(aiKey, JVal.s "real text"), ("suggested_test".toList, JVal.null)]
    (by rfl) (by rfl) (by rfl) (by rfl) (by rfl) (by rfl) (by rfl)


set_option maxHeartbeats 1000000 in
theorem processDebateTurn_ok_shape (c : Bool) (o : TurnOracles) (uc : List Char)
    (st : ClinicalState) (prev : List Round) (rc : List Char)
    (r : List (List Char × JVal)) (st2 : ClinicalState)
    (h : processDebateTurn c o uc st prev rc = .ok (r, st2)) :
    ∃ mid : ClinicalState, st2 = episodeStep c o.episodeLLM prev mid ∧
      mid.debate_round = st.debate_round + 1 ∧
      mid.episode_summaries = st.episode_summaries ∧
      mid.last_episode_round = st.last_episode_round := by
  simp only [processDebateTurn] at h
  repeat' split at h
  all_goals try simp at h
  all_goals (obtain ⟨h1, h2⟩ := h; exact ⟨_, h2.symm, rfl, rfl, rfl⟩)


theorem createEpisodeSummary_ne_nil (rounds : List Round)
    (llm : Except (List Char) (List Char)) (hnb : epNonBlank llm) :
    (createEpisodeSummary rounds true llm ≠ [] ↔ 4 ≤ rounds.length) := by
  unfold createEpisodeSummary
  rcases Nat.lt_or_ge rounds.length 4 with hlen | hlen
  · rw [if_pos (Or.inl hlen)]
    simp
    omega
  · rw [if_neg (by simp; omega)]
    constructor
    · intro _; exact hlen
    · intro _
      match llm, hnb with
      | .ok t, hnb => exact hnb
      | .error e, _ => simp

theorem episodeStep_spec (llm : Except (List Char) (List Char))
    (prev : List Round) (mid : ClinicalState) (hnb : epNonBlank llm) :
    ((episodeStep true llm prev mid).episode_summaries.length =
        mid.episode_summaries.length + 1 ↔
      (5 ≤ mid.debate_round - mid.last_episode_round ∧ 4 ≤ prev.length))
    ∧ (episodeStep true llm prev mid).debate_round = mid.debate_round
    ∧ (episodeStep true llm prev mid).last_episode_round =
        (if 5 ≤ mid.debate_round - mid.last_episode_round ∧ 4 ≤ prev.length
         then mid.debate_round else mid.last_episode_round) := by
  have hlen5 : (takeLast 5 prev).length = prev.length - (prev.length - 5) := by
    unfold takeLast
    exact List.length_drop _ _
  have hne := createEpisodeSummary_ne_nil (takeLast 5 prev) llm hnb
  rw [hlen5] at hne
  have hlen4 : (4 ≤ prev.length - (prev.length - 5)) ↔ 4 ≤ prev.length := by omega
  simp only [episodeStep]
  by_cases hcond : 5 ≤ mid.debate_round - mid.last_episode_round ∧ prev.isEmpty = false
  · rw [if_pos hcond]
    by_cases hsum : createEpisodeSummary (takeLast 5 prev) true llm ≠ []
    · have h4 : 4 ≤ prev.length := hlen4.mp (hne.mp hsum)
      rw [if_pos hsum]
      refine ⟨?_, rfl, ?_⟩
      · simp only [List.length_append, List.length_cons, List.length_nil]
        simp [hcond.1, h4]
      · rw [if_pos ⟨hcond.1, h4⟩]
    · have h4 : ¬ 4 ≤ prev.length := fun hh => hsum (hne.mpr (hlen4.mpr hh))
      rw [if_neg hsum]
      refine ⟨?_, rfl, ?_⟩
      · constructor
        · intro hh; omega
        · intro hh; exact absurd hh.2 h4
      · rw [if_neg (fun hh => h4 hh.2)]
  · rw [if_neg hcond]
    have hnot : ¬ (5 ≤ mid.debate_round - mid.last_episode_round ∧ 4 ≤ prev.length) := by
      intro hh
      apply hcond
      refine ⟨hh.1, ?_⟩
      cases prev with
      | nil => simp at hh
      | cons a l => rfl
    refine ⟨?_, rfl, ?_⟩
    · constructor
      · intro hh; omega
      · intro hh; exact absurd hh hnot
    · rw [if_neg hnot]

/-- C6: an episode summary is appended by `process_debate_turn` exactly when
the incremented `debate_round` minus `last_episode_round` is at least 5 and at
least 4 prior rounds of history exist; at round 4 of the running example no
summary is created and `last_episode_round` stays 0, at round 5 exactly one is
appended and `last_episode_round` becomes 5; and the invariant
`debate_round ≥ last_episode_round ≥ 0` is preserved by every successful
turn. -/
theorem c6_episode_summary_trigger :
    (∀ (o : TurnOracles) (uc : List Char) (st : ClinicalState)
        (prev : List Round) (rc : List Char) (r : List (List Char × JVal))
        (st2 : ClinicalState), epNonBlank o.episodeLLM →
        processDebateTurn true o uc st prev rc = .ok (r, st2) →
        ((st2.episode_summaries.length = st.episode_summaries.length + 1 ↔
            (5 ≤ st.debate_round + 1 - st.last_episode_round ∧ 4 ≤ prev.length))
          ∧ st2.debate_round = st.debate_round + 1
          ∧ (0 ≤ st.last_episode_round ∧ st.last_episode_round ≤ st.debate_round →
              0 ≤ st2.last_episode_round ∧ st2.last_episode_round ≤ st2.debate_round)))
    ∧ (processDebateTurn true episodeOracles "u".toList stateRound4
          (List.replicate 3 sampleRound) []).map
        (fun p => (p.2.episode_summaries, p.2.last_episode_round, p.2.debate_round)) =
        .ok ([], 0, 4)
    ∧ (processDebateTurn true episodeOracles "u".toList stateRound5
          (List.replicate 4 sampleRound) []).map
        (fun p => (p.2.episode_summaries, p.2.last_episode_round, p.2.debate_round)) =
        .ok (["summary text".toList], 5, 5) := by
  refine ⟨?_, by rfl, by rfl⟩
  intro o uc st prev rc r st2 hnb h
  obtain ⟨mid, hst2, hdr, hes, hler⟩ :=
    processDebateTurn_ok_shape true o uc st prev rc r st2 h
  have hspec := episodeStep_spec o.episodeLLM prev mid hnb
  rw [hdr, hes, hler] at hspec
  subst hst2
  refine ⟨hspec.1, hspec.2.1, ?_⟩
  intro hinv
  rw [hspec.2.2, hspec.2.1]
  split
  · omega
  · omega

/-- Witness: the round-5 example run discharges the hypotheses of the
general conjunct of the C6 theorem. -/
theorem c6_witness :
    epNonBlank episodeOracles.episodeLLM ∧
    processDebateTurn true episodeOracles "u".toList stateRound5
        (List.replicate 4 sampleRound) [] = .ok (c6ResultDict, c6StateAfter) ∧
    ((c6StateAfter.episode_summaries.length =
        stateRound5.episode_summaries.length + 1 ↔
      (5 ≤ stateRound5.debate_round + 1 - stateRound5.last_episode_round ∧
        4 ≤ (List.replicate 4 sampleRound).length))
      ∧ c6StateAfter.debate_round = stateRound5.debate_round + 1
      ∧ (0 ≤ stateRound5.last_episode_round ∧
            stateRound5.last_episode_round ≤ stateRound5.debate_round →
          0 ≤ c6StateAfter.last_episode_round ∧
            c6StateAfter.last_episode_round ≤ c6StateAfter.debate_round)) :=
  ⟨by simp only [episodeOracles, epNonBlank]; decide, rfl,
   c6_episode_summary_trigger.1 episodeOracles "u".toList stateRound5
     (List.replicate 4 sampleRound) [] c6ResultDict c6StateAfter
     (by simp only [episodeOracles, epNonBlank]; decide) rfl⟩

theorem containsSub_mid (a needle c : List Char) :
    containsSub (a ++ needle ++ c) needle = true := by
  unfold containsSub
  rw [List.any_eq_true]
  refine ⟨a.length, List.mem_range.mpr ?_, ?_⟩
  · simp [List.length_append]
    omega
  · rw [List.append_assoc, List.drop_left, List.isPrefixOf_iff_prefix]
    exact List.prefix_append _ _

theorem containsSub_append_left (a b needle : List Char)
    (h : containsSub a needle = true) : containsSub (a ++ b) needle = true := by
  unfold containsSub at h ⊢
  rw [List.any_eq_true] at h ⊢
  obtain ⟨i, hi, hp⟩ := h
  rw [List.mem_range] at hi
  refine ⟨i, List.mem_range.mpr ?_, ?_⟩
  · simp [List.length_append]
    omega
  · rw [List.isPrefixOf_iff_prefix] at hp ⊢
    rw [List.drop_append_eq_append_drop, Nat.sub_eq_zero_of_le (by omega), List.drop_zero]
    exact hp.trans (List.prefix_append _ _)

theorem episodeStep_debate_round (c : Bool) (llm : Except (List Char) (List Char))
    (prev : List Round) (mid : ClinicalState) :
    (episodeStep c llm prev mid).debate_round = mid.debate_round := by
  simp only [episodeStep]
  split
  · split <;> rfl
  · rfl


/-- C7 counterexample: in the timeout example the specialist call times out,
the turn still succeeds, but its `ai_response` is exactly the synthesis
oracle text "ok", which contains neither the formulated question nor any
guidance text — refuting the claim that the resulting turn's `ai_response`
references the original question and contains guidance text. -/
theorem c7_counterexample :
    timeoutOracles.specialist = none ∧
    (processDebateTurn true timeoutOracles "u".toList {} [] []).map
        (fun p => (dgetD p.1 aiKey (.str []), p.2.debate_round)) =
      .ok (.str "ok".toList, 1) ∧
    containsSub "ok".toList ((stripL timeoutOracles.queryText).take 150) = false ∧
    containsSub "ok".toList "RECOMMENDATIONS".toList = false :=
  ⟨rfl, rfl, by decide, by decide⟩

/-- C7 (amended): when the specialist call inside `process_debate_turn` times
out, the specialist answer is replaced by the canned guidance of
`_generate_timeout_response`, which quotes the first 150 characters of the
formulated question and contains guidance text; the turn does not fail and
`debate_round` is incremented exactly once — but the turn's `ai_response` is
the synthesis model's output and need not reference the question. -/
theorem c7_amended :
    (∀ (o : TurnOracles) (q : List Char), o.specialist = none →
        specialistAnswer o q = generateTimeoutResponse q)
    ∧ (∀ q : List Char,
        containsSub (generateTimeoutResponse q) (q.take 150) = true
        ∧ containsSub (generateTimeoutResponse q) "RECOMMENDATIONS".toList = true)
    ∧ (∀ (o : TurnOracles) (uc : List Char) (st : ClinicalState)
        (prev : List Round) (rc : List Char) (r : List (List Char × JVal))
        (st2 : ClinicalState),
        processDebateTurn true o uc st prev rc = .ok (r, st2) →
        st2.debate_round = st.debate_round + 1)
    ∧ (processDebateTurn true timeoutOracles "u".toList {} [] []).map
        (fun p => p.2.debate_round) = .ok 1 := by
  refine ⟨?_, ?_, ?_, rfl⟩
  · intro o q h
    simp only [specialistAnswer, h]
  · intro q
    constructor
    · exact containsSub_mid timeoutPre (q.take 150) timeoutSuf
    · have h1 : containsSub timeoutPre "RECOMMENDATIONS".toList = true := by decide
      exact containsSub_append_left _ _ _ (containsSub_append_left _ _ _ h1)
  · intro o uc st prev rc r st2 h
    obtain ⟨mid, hst2, hdr, hes, hler⟩ :=
      processDebateTurn_ok_shape true o uc st prev rc r st2 h
    rw [hst2, episodeStep_debate_round, hdr]

/-- Witness: the timeout example discharges the hypotheses of the amended C7
theorem at concrete inputs. -/
theorem c7_witness :
    timeoutOracles.specialist = none ∧
    specialistAnswer timeoutOracles "Why?".toList =
      generateTimeoutResponse "Why?".toList ∧
    containsSub (generateTimeoutResponse "Why?".toList)
      ("Why?".toList.take 150) = true ∧
    processDebateTurn true timeoutOracles "u".toList {} [] [] =
      .ok (c6ResultDict, { debate_round := 1 }) ∧
    ({ debate_round := 1 } : ClinicalState).debate_round =
      ({} : ClinicalState).debate_round + 1 :=
  ⟨rfl,
   c7_amended.1 timeoutOracles "Why?".toList rfl,
   (c7_amended.2.1 "Why?".toList).1,
   rfl,
   c7_amended.2.2.1 timeoutOracles "u".toList {} [] [] c6ResultDict
     { debate_round := 1 } rfl⟩

set_option maxHeartbeats 1000000 in
theorem medgemmaOnlyAttempt_orchestrated (req : DebateTurnRequest)
    (fb : FallbackOracles) (r : DTResponse)
    (h : medgemmaOnlyAttempt req fb = .ok r) : r.orchestrated = false := by
  simp only [medgemmaOnlyAttempt] at h
  repeat' split at h
  all_goals first
    | (rw [Except.ok.injEq] at h
       rw [← h])
    | simp at h


/-- C8: the debate-turn handler never raises: with a positive session
capacity every `_debate_turn_orchestrated` call returns a result; an
exception in the orchestrated attempt yields the MedGemma-only fallback
response instead; the fallback response always carries
`orchestrated = false`; and when the fallback attempt itself fails the
handler returns the templated apologetic response. -/
theorem c8_fallback_never_raises :
    (∀ (sessions : List (List Char × ClinicalState)) (req : DebateTurnRequest)
        (gsid : List Char) (c : Bool) (o : TurnOracles) (fb : FallbackOracles)
        (ms : Nat), 1 ≤ ms →
        (debateTurnOrchestrated sessions req gsid c o fb ms).isOk = true)
    ∧ (∀ (sessions sessions1 : List (List Char × ClinicalState))
        (req : DebateTurnRequest) (gsid e : List Char) (c : Bool)
        (o : TurnOracles) (fb : FallbackOracles) (ms : Nat),
        getOrCreateSession sessions (req.session_id.getD gsid) (freshFor req)
          ms = .ok sessions1 →
        orchestratedAttempt req (req.session_id.getD gsid) c o
          (((sessions1.find? (fun p => p.1 == req.session_id.getD gsid)).map
              (fun p => p.2)).getD (freshFor req)) = .error e →
        debateTurnOrchestrated sessions req gsid c o fb ms =
          .ok (sessions1, debateTurnMedgemmaOnly req fb))
    ∧ (∀ (req : DebateTurnRequest) (fb : FallbackOracles),
        (debateTurnMedgemmaOnly req fb).orchestrated = false)
    ∧ (∀ (req : DebateTurnRequest) (fb : FallbackOracles) (e : List Char),
        medgemmaOnlyAttempt req fb = .error e →
        debateTurnMedgemmaOnly req fb =
          { ai_response := .str (apologeticResponse e),
            updated_differential := req.current_differential,
            suggested_test := .null,
            orchestrated := false }) := by
  refine ⟨?_, ?_, ?_, ?_⟩
  · intro sessions req gsid c o fb ms hms
    obtain ⟨s1, hs1⟩ :=
      getOrCreateSession_isOk sessions (req.session_id.getD gsid) (freshFor req) ms hms
    simp only [debateTurnOrchestrated, hs1]
    split
    · rfl
    · rfl
  · intro sessions sessions1 req gsid e c o fb ms h1 h2
    simp only [debateTurnOrchestrated, h1, h2]
  · intro req fb
    unfold debateTurnMedgemmaOnly
    cases hm : medgemmaOnlyAttempt req fb with
    | ok r => exact medgemmaOnlyAttempt_orchestrated req fb r hm
    | error e => rfl
  · intro req fb e h
    unfold debateTurnMedgemmaOnly
    rw [h]

/-- Witness: a concrete uninitialized-orchestrator run with a failing
fallback model discharges the hypotheses of the C8 theorem. -/
theorem c8_witness :
    (debateTurnOrchestrated [] c8Req "s".toList false episodeOracles c8FailFb
        1).isOk = true ∧
    debateTurnOrchestrated [] c8Req "s".toList false episodeOracles c8FailFb 1 =
      .ok ([("s".toList, freshFor c8Req)],
        debateTurnMedgemmaOnly c8Req c8FailFb) ∧
    (debateTurnMedgemmaOnly c8Req c8FailFb).orchestrated = false ∧
    medgemmaOnlyAttempt c8Req c8FailFb = .error "boom".toList ∧
    debateTurnMedgemmaOnly c8Req c8FailFb =
      { ai_response := .str (apologeticResponse "boom".toList),
        updated_differential := c8Req.current_differential,
        suggested_test := .null, orchestrated := false } :=
  ⟨c8_fallback_never_raises.1 [] c8Req "s".toList false episodeOracles c8FailFb
     1 (by decide),
   c8_fallback_never_raises.2.1 [] [("s".toList, freshFor c8Req)] c8Req
     "s".toList "Orchestrator not initialized. Call initialize() first.".toList
     false episodeOracles c8FailFb 1 rfl rfl,
   c8_fallback_never_raises.2.2.1 c8Req c8FailFb,
   rfl,
   c8_fallback_never_raises.2.2.2 c8Req c8FailFb "boom".toList rfl⟩

end Sturgeon
